import Mathlib

/-!
Verification development for the weather analysis / forecasting core of the
env_danger_pred repository (src/weather_prediction.py, src/data_analyzer.py,
src/utils.py).

Modelling conventions, used throughout:
* Python floats are embedded as exact rationals (ℚ); `NaN` is embedded as
  `none` in `Option ℚ`.  Missing-value propagation of pandas is modelled
  explicitly on `Option`-valued columns.
* A pandas `DataFrame` of daily observations is embedded as parallel column
  lists (dates, temperature, humidity).  Dates (`pandas.Timestamp` at day
  granularity) are embedded as `ℤ`, the number of days since 1970-01-01;
  `timedelta(days=i)` is integer addition.  Calendar fields (year, month,
  day, weekday, day-of-year, quarter) are computed from the day count with
  the standard proleptic-Gregorian algorithms, mirroring `datetime`.
* External numeric libraries that are not part of this repository
  (numpy trigonometry, the real square root inside standard deviation,
  sklearn's RobustScaler and the XGBoost regressors) are embedded as oracle
  parameters: arbitrary functions supplied to the pipeline.  The claims
  proven here hold for every oracle, and counterexamples instantiate them
  concretely.  The one library contract that is embedded concretely is the
  feature-width validation of `RobustScaler.transform`, which rejects a
  feature vector whose length differs from the fitted width.
-/

/-- A pandas Series of floats possibly containing NaN: one entry per row. -/
abbrev Col := List (Option ℚ)

/-- Python `min(a, b)` on numbers (first argument on ties). -/
def pyMin (a b : ℚ) : ℚ := if a ≤ b then a else b

/-- Python `max(a, b)` on numbers (first argument on ties). -/
def pyMax (a b : ℚ) : ℚ := if b ≤ a then a else b

/-- `min` on day counts. -/
def zMin (a b : ℤ) : ℤ := if a ≤ b then a else b

/-- `max` on day counts. -/
def zMax (a b : ℤ) : ℤ := if a ≤ b then b else a

/-- Mean of a list of rationals (pandas `Series.mean` on dense data);
division by zero yields 0 for the empty list, a case always guarded in the
source. -/
def listMean (l : List ℚ) : ℚ := l.sum / l.length

/-- Sample variance with ddof = 1, the square of pandas `Series.std`.
The source works with the standard deviation `sqrt (sampleVar l)`; the
square root is irrational in general, so the embedding keeps the variance
and transfers comparisons through the strictly monotone square root where
needed. -/
def sampleVar (l : List ℚ) : ℚ :=
  ((l.map (fun x => (x - listMean l) ^ 2)).sum) / ((l.length : ℚ) - 1)

/-- Minimum of a list (pandas `Series.min`), none on empty. -/
def listMin : List ℚ → Option ℚ
  | [] => none
  | x :: xs => some (xs.foldl pyMin x)

/-- Maximum of a list (pandas `Series.max`), none on empty. -/
def listMax : List ℚ → Option ℚ
  | [] => none
  | x :: xs => some (xs.foldl pyMax x)

/-- Nondecreasing sort of a list of rationals. -/
def sortQ (l : List ℚ) : List ℚ := l.mergeSort (fun a b => decide (a ≤ b))

/-- Median (pandas `Series.median`): middle element of the sorted list, or
the average of the two middle elements for even length; none on empty. -/
def listMedian (l : List ℚ) : Option ℚ :=
  if l.isEmpty then none
  else
    let s := sortQ l
    let n := l.length
    if n % 2 = 1 then some (s.getD (n / 2) 0)
    else some ((s.getD (n / 2 - 1) 0 + s.getD (n / 2) 0) / 2)

/-- Percentile rank (pandas `Rolling.rank(method='average', pct=True)`):
the average rank of the last element of the window among the window's
elements, divided by the window size; none on empty. -/
def rankPctLast (l : List ℚ) : Option ℚ :=
  match l.getLast? with
  | none => none
  | some x =>
      some ((((l.countP (fun y => decide (y < x)) : ℚ)) +
             (((l.countP (fun y => decide (y = x)) : ℚ)) + 1) / 2) / l.length)

/-- Round half to even to the nearest integer (Python `round` semantics on
exact values). -/
def roundHalfEven (q : ℚ) : ℤ :=
  let f := q.floor
  let r := q - f
  if r < 1 / 2 then f
  else if 1 / 2 < r then f + 1
  else if f % 2 = 0 then f else f + 1

/-- Python `round(x, 1)`: round half to even at one decimal place. -/
def pyRound1 (q : ℚ) : ℚ := (roundHalfEven (q * 10) : ℚ) / 10

/-- Python `round(x, 2)`. -/
def pyRound2 (q : ℚ) : ℚ := (roundHalfEven (q * 100) : ℚ) / 100

/-- Python `round(x, 3)`. -/
def pyRound3 (q : ℚ) : ℚ := (roundHalfEven (q * 1000) : ℚ) / 1000

/-- pandas `Series.shift(k)`: entry `i` is the value `k` rows earlier, NaN
for the first `k` rows. -/
def shiftCol (k : ℕ) (xs : List ℚ) : Col :=
  (List.range xs.length).map (fun i => if k ≤ i then xs.get? (i - k) else none)

/-- pandas `Series.diff(k)`: entry `i` is `xs[i] - xs[i-k]`, NaN for the
first `k` rows. -/
def diffCol (k : ℕ) (xs : List ℚ) : Col :=
  (List.range xs.length).map (fun i =>
    if k ≤ i then (xs.get? i).bind (fun a => (xs.get? (i - k)).map (fun b => a - b))
    else none)

/-- The last `w` elements of a list, in order. -/
def lastN (w : ℕ) (l : List ℚ) : List ℚ := l.drop (l.length - w)

/-- Operational core of pandas `Series.rolling(window := w, min_periods := 1)`:
walk the series keeping a buffer of the at-most-`w` most recent elements and
apply the aggregator to the buffer at each step. -/
def rollingGo (f : List ℚ → Option ℚ) (w : ℕ) (buf : List ℚ) : List ℚ → Col
  | [] => []
  | x :: rest => f (lastN w (buf ++ [x])) :: rollingGo f w (lastN w (buf ++ [x])) rest

/-- pandas `Series.rolling(window := w, min_periods := 1).agg f`. -/
def rollingApply (f : List ℚ → Option ℚ) (w : ℕ) (xs : List ℚ) : Col :=
  rollingGo f w [] xs

/-- pandas `DataFrame.bfill` on one column: a NaN entry takes the next
non-missing value below it. -/
def bfillCol (l : Col) : Col :=
  (List.range l.length).map (fun i => ((l.drop i).filterMap id).head?)

/-- pandas `DataFrame.ffill` on one column: a NaN entry takes the closest
non-missing value above it. -/
def ffillCol (l : Col) : Col :=
  (List.range l.length).map (fun i => ((l.take (i + 1)).filterMap id).getLast?)

/-- The missing-value policy of `create_advanced_features` line 138:
`df.bfill().ffill()`, backward fill then forward fill, columnwise. -/
def fillCol (l : Col) : Col := ffillCol (bfillCol l)

/-- Sum of the indices 0..n-1 as a rational. -/
def idxSum (n : ℕ) : ℚ := ((List.range n).map (fun i => (i : ℚ))).sum

/-- Sum of the squared indices 0..n-1 as a rational. -/
def idxSqSum (n : ℕ) : ℚ := ((List.range n).map (fun i => (i : ℚ) ^ 2)).sum

/-- Sum of index·value over a series. -/
def xySum (ys : List ℚ) : ℚ :=
  (List.zipWith (fun (i : ℕ) (y : ℚ) => (i : ℚ) * y) (List.range ys.length) ys).sum

/-- Slope of the degree-1 least-squares fit of a series against its index
0..n-1: `np.polyfit(range(len(y)), y, 1)[0]`.  For n ≥ 2 this closed form
is the unique least-squares solution that polyfit computes. -/
def polyfitSlope (ys : List ℚ) : ℚ :=
  let n : ℚ := ys.length
  (n * xySum ys - idxSum ys.length * ys.sum) /
    (n * idxSqSum ys.length - idxSum ys.length ^ 2)

/-- Intercept of the same degree-1 least-squares fit:
`np.polyfit(range(len(y)), y, 1)[1]`. -/
def polyfitIntercept (ys : List ℚ) : ℚ :=
  (ys.sum - polyfitSlope ys * idxSum ys.length) / ys.length

/-- `DataAnalyzer._calculate_r_squared` (src/data_analyzer.py lines 243-255):
R² of the degree-1 fit, 0 for series shorter than 2 and for zero total sum
of squares. -/
def calculate_r_squared (ys : List ℚ) : ℚ :=
  if ys.length < 2 then 0
  else
    let m := polyfitSlope ys
    let b := polyfitIntercept ys
    let ss_res :=
      (List.zipWith (fun (i : ℕ) (y : ℚ) => (y - (m * (i : ℚ) + b)) ^ 2)
        (List.range ys.length) ys).sum
    let ss_tot := (ys.map (fun y => (y - listMean ys) ^ 2)).sum
    if ss_tot ≠ 0 then 1 - ss_res / ss_tot else 0

/-- Proleptic-Gregorian (year, month, day) of a day count since 1970-01-01,
the standard civil-from-days integer algorithm, mirroring what
`datetime`/`pandas.Timestamp` expose as `.year`, `.month`, `.day`. -/
def civilFromDays (z : ℤ) : ℤ × ℕ × ℕ :=
  let zs := z + 719468
  let era := Int.fdiv zs 146097
  let doe := zs - era * 146097
  let yoe := Int.fdiv (doe - Int.fdiv doe 1460 + Int.fdiv doe 36524 - Int.fdiv doe 146096) 365
  let y := yoe + era * 400
  let doy := doe - (365 * yoe + Int.fdiv yoe 4 - Int.fdiv yoe 100)
  let mp := Int.fdiv (5 * doy + 2) 153
  let d := doy - Int.fdiv (153 * mp + 2) 5 + 1
  let m := if mp < 10 then mp + 3 else mp - 9
  (if m ≤ 2 then y + 1 else y, m.toNat, d.toNat)

/-- Calendar year of a day count (`Timestamp.year`). -/
def yearOf (z : ℤ) : ℤ := (civilFromDays z).1

/-- Calendar month of a day count (`Timestamp.month`). -/
def monthOf (z : ℤ) : ℕ := (civilFromDays z).2.1

/-- Day of month of a day count (`Timestamp.day`). -/
def dayOf (z : ℤ) : ℕ := (civilFromDays z).2.2

/-- Day count since 1970-01-01 of a civil (year, month, day), the inverse
integer algorithm. -/
def daysFromCivil (y : ℤ) (m d : ℕ) : ℤ :=
  let ya := if m ≤ 2 then y - 1 else y
  let era := Int.fdiv ya 400
  let yoe := ya - era * 400
  let mp : ℤ := if 2 < m then (m : ℤ) - 3 else (m : ℤ) + 9
  let doy := Int.fdiv (153 * mp + 2) 5 + (d : ℤ) - 1
  let doe := 365 * yoe + Int.fdiv yoe 4 - Int.fdiv yoe 100 + doy
  era * 146097 + doe - 719468

/-- Ordinal day of year (`timetuple().tm_yday` / `Timestamp.dayofyear`). -/
def dayOfYearOf (z : ℤ) : ℕ := (z - daysFromCivil (yearOf z) 1 1 + 1).toNat

/-- Day of week with Monday = 0 (`datetime.weekday()` and pandas
`dt.dayofweek`); 1970-01-01 was a Thursday. -/
def weekdayOf (z : ℤ) : ℕ := (Int.fmod (z + 3) 7).toNat

/-- Quarter of a month (`Timestamp.quarter`). -/
def quarterOf (m : ℕ) : ℕ := (m - 1) / 3 + 1

/-- The observation table handed to the core: parallel columns of dates
(days since epoch), temperature (°C) and humidity (%).  The loader yields
dense numeric observation columns; missing values only arise in derived
feature columns. -/
structure ObsData where
  dates : List ℤ
  temperature : List ℚ
  humidity : List ℚ
deriving DecidableEq, Repr

/-- Number of rows of the observation table. -/
def ObsData.numRows (d : ObsData) : ℕ := d.dates.length

/-- Appending further observation rows below an existing table. -/
def ObsData.append (d e : ObsData) : ObsData :=
  ⟨d.dates ++ e.dates, d.temperature ++ e.temperature, d.humidity ++ e.humidity⟩

/-- Column lengths agree (every actual DataFrame satisfies this). -/
def ObsData.aligned (d : ObsData) : Prop :=
  d.temperature.length = d.dates.length ∧ d.humidity.length = d.dates.length

/-- Oracle for numpy's real-valued trigonometry: `sin2pi x` stands for
sin(2πx) and `cos2pi x` for cos(2πx) (the factor 2π of the source is
absorbed into the oracle since π is irrational).  Everything proven about
the pipeline holds for every such oracle. -/
structure TrigOracle where
  sin2pi : ℚ → ℚ
  cos2pi : ℚ → ℚ

/-- Aggregator of `rolling(...).mean()`. -/
def meanW (l : List ℚ) : Option ℚ := if l.isEmpty then none else some (listMean l)

/-- Aggregator of `rolling(...).std()` (ddof = 1): NaN on windows with
fewer than two elements.  The stored value is the sample variance, see
`sampleVar`. -/
def stdW (l : List ℚ) : Option ℚ := if l.length < 2 then none else some (sampleVar l)

/-- Aggregator of `rolling(...).median()`. -/
def medianW (l : List ℚ) : Option ℚ := listMedian l

/-- Aggregator of `rolling(...).min()`. -/
def minW (l : List ℚ) : Option ℚ := listMin l

/-- Aggregator of `rolling(...).max()`. -/
def maxW (l : List ℚ) : Option ℚ := listMax l

/-- Aggregator of `rolling(...).rank(pct=True)`. -/
def rankW (l : List ℚ) : Option ℚ := rankPctLast l

/-- Aggregator of the rolling trend feature
`rolling(...).apply(lambda x: np.polyfit(range(len(x)), x, 1)[0] if len(x) > 1 else 0)`. -/
def trendW (l : List ℚ) : Option ℚ := some (if 1 < l.length then polyfitSlope l else 0)

/-- NaN-propagating pointwise combination of two columns (pandas Series
arithmetic). -/
def zipWithOpt (f : ℚ → ℚ → ℚ) (a b : Col) : Col :=
  List.zipWith (fun x y => x.bind (fun u => y.map (fun v => f u v))) a b

/-- The engineered feature columns of
`WeatherPredictor.create_advanced_features`
(src/weather_prediction.py lines 55-140), one constructor per column
family, parameterized by the lag / window size. -/
inductive FeatureId
  | day_of_year | month | day | day_of_week | quarter
  | season_sin | season_cos | month_sin | month_cos | week_sin | week_cos
  | temp_lag (k : ℕ) | humidity_lag (k : ℕ)
  | temp_ma (w : ℕ) | humidity_ma (w : ℕ)
  | temp_median (w : ℕ) | humidity_median (w : ℕ)
  | temp_std (w : ℕ) | humidity_std (w : ℕ)
  | temp_range (w : ℕ) | humidity_range (w : ℕ)
  | temp_change (k : ℕ) | humidity_change (k : ℕ)
  | temp_rank (w : ℕ) | humidity_rank (w : ℕ)
  | temp_humidity_interaction | temp_humidity_ratio
  | temp_trend (w : ℕ) | humidity_trend (w : ℕ)
deriving DecidableEq, Repr

/-- The value column each feature assignment of `create_advanced_features`
computes, before the final missing-value fill of line 138.  Each case is
the direct translation of the corresponding pandas expression; the
calendar/trig features read the date column, everything else reads the
temperature/humidity columns.  365.25 is written 1461/4. -/
def rawColumn (O : TrigOracle) (d : ObsData) : FeatureId → Col
  | .day_of_year => d.dates.map (fun z => some (dayOfYearOf z : ℚ))
  | .month => d.dates.map (fun z => some (monthOf z : ℚ))
  | .day => d.dates.map (fun z => some (dayOf z : ℚ))
  | .day_of_week => d.dates.map (fun z => some (weekdayOf z : ℚ))
  | .quarter => d.dates.map (fun z => some (quarterOf (monthOf z) : ℚ))
  | .season_sin => d.dates.map (fun z => some (O.sin2pi ((dayOfYearOf z : ℚ) / (1461 / 4))))
  | .season_cos => d.dates.map (fun z => some (O.cos2pi ((dayOfYearOf z : ℚ) / (1461 / 4))))
  | .month_sin => d.dates.map (fun z => some (O.sin2pi ((monthOf z : ℚ) / 12)))
  | .month_cos => d.dates.map (fun z => some (O.cos2pi ((monthOf z : ℚ) / 12)))
  | .week_sin => d.dates.map (fun z => some (O.sin2pi ((dayOfYearOf z : ℚ) / 7)))
  | .week_cos => d.dates.map (fun z => some (O.cos2pi ((dayOfYearOf z : ℚ) / 7)))
  | .temp_lag k => shiftCol k d.temperature
  | .humidity_lag k => shiftCol k d.humidity
  | .temp_ma w => rollingApply meanW w d.temperature
  | .humidity_ma w => rollingApply meanW w d.humidity
  | .temp_median w => rollingApply medianW w d.temperature
  | .humidity_median w => rollingApply medianW w d.humidity
  | .temp_std w => rollingApply stdW w d.temperature
  | .humidity_std w => rollingApply stdW w d.humidity
  | .temp_range w =>
      zipWithOpt (fun a b => a - b)
        (rollingApply maxW w d.temperature) (rollingApply minW w d.temperature)
  | .humidity_range w =>
      zipWithOpt (fun a b => a - b)
        (rollingApply maxW w d.humidity) (rollingApply minW w d.humidity)
  | .temp_change k => diffCol k d.temperature
  | .humidity_change k => diffCol k d.humidity
  | .temp_rank w => rollingApply rankW w d.temperature
  | .humidity_rank w => rollingApply rankW w d.humidity
  | .temp_humidity_interaction =>
      List.zipWith (fun t h => some (t * h / 100)) d.temperature d.humidity
  | .temp_humidity_ratio =>
      List.zipWith (fun t h => some (t / (h + 1))) d.temperature d.humidity
  | .temp_trend w => rollingApply trendW w d.temperature
  | .humidity_trend w => rollingApply trendW w d.humidity

/-- The feature table produced by `create_advanced_features`: the cloned
base observation columns (line 65: `df = data.copy()`) together with every
feature column after the final `df.bfill().ffill()` of line 138 (the base
columns are dense, so the fill leaves them unchanged). -/
structure FeatTable where
  base : ObsData
  col : FeatureId → Col

/-- `WeatherPredictor.create_advanced_features` as a pure table: each
feature column is computed from the base columns and then passed through
the backward/forward fill. -/
def create_advanced_features (O : TrigOracle) (d : ObsData) : FeatTable :=
  ⟨d, fun id => fillCol (rawColumn O d id)⟩

/-- The `feature_cols` list of `predict_weather`
(src/weather_prediction.py lines 248-266), in source order.  Every name
listed there is a column of the feature table, so `available_features`
equals this list. -/
def featureCols : List FeatureId :=
  [.day_of_year, .month, .day, .day_of_week, .quarter,
   .season_sin, .season_cos, .month_sin, .month_cos, .week_sin, .week_cos,
   .temp_lag 1, .temp_lag 2, .temp_lag 3, .temp_lag 5, .temp_lag 7, .temp_lag 10, .temp_lag 14,
   .humidity_lag 1, .humidity_lag 2, .humidity_lag 3, .humidity_lag 5, .humidity_lag 7,
   .humidity_lag 10, .humidity_lag 14,
   .temp_ma 3, .temp_ma 5, .temp_ma 7, .temp_ma 10, .temp_ma 14, .temp_ma 21,
   .humidity_ma 3, .humidity_ma 5, .humidity_ma 7, .humidity_ma 10, .humidity_ma 14, .humidity_ma 21,
   .temp_median 3, .temp_median 7, .temp_median 14,
   .humidity_median 3, .humidity_median 7, .humidity_median 14,
   .temp_std 3, .temp_std 7, .temp_std 14,
   .humidity_std 3, .humidity_std 7, .humidity_std 14,
   .temp_range 3, .temp_range 7, .temp_range 14,
   .humidity_range 3, .humidity_range 7, .humidity_range 14,
   .temp_change 1, .temp_change 3, .humidity_change 1, .humidity_change 3,
   .temp_rank 7, .temp_rank 14, .temp_rank 30,
   .humidity_rank 7, .humidity_rank 14, .humidity_rank 30,
   .temp_humidity_interaction, .temp_humidity_ratio,
   .temp_trend 7, .temp_trend 14, .humidity_trend 7, .humidity_trend 14]

/-- `column.iloc[-1]` on a possibly-NaN feature column of the table. -/
def colLast (T : FeatTable) (id : FeatureId) : Option ℚ := ((T.col id).getLast?).join

/-- `WeatherPredictor._create_prediction_features`
(src/weather_prediction.py lines 335-461).  The `if ... in data.columns`
alternatives of the source are dead in the pipeline because
`create_advanced_features` adds every column, so the column reads are
embedded directly.  Note the source quirk kept here: the weekly trig
entries use day-of-week/7 while training used day-of-year/7.  In the
data-poor branch (fewer than 14 rows) the source extends the vector with
14 copies of the average temperature and 14 copies of the average humidity
(28 entries, where the trained models expect the 14 lag features). -/
def create_prediction_features (O : TrigOracle) (T : FeatTable) (pd : ℤ) : List (Option ℚ) :=
  let doy := dayOfYearOf pd
  let m := monthOf pd
  let dy := dayOf pd
  let dow := weekdayOf pd
  let q := quarterOf m
  let calendar : List (Option ℚ) :=
    [some (doy : ℚ), some (m : ℚ), some (dy : ℚ), some (dow : ℚ), some (q : ℚ),
     some (O.sin2pi ((doy : ℚ) / (1461 / 4))), some (O.cos2pi ((doy : ℚ) / (1461 / 4))),
     some (O.sin2pi ((m : ℚ) / 12)), some (O.cos2pi ((m : ℚ) / 12)),
     some (O.sin2pi ((dow : ℚ) / 7)), some (O.cos2pi ((dow : ℚ) / 7))]
  let n := T.base.temperature.length
  let lags : List (Option ℚ) :=
    if 14 ≤ n then
      [T.base.temperature.get? (n - 1), T.base.temperature.get? (n - 2),
       T.base.temperature.get? (n - 3), T.base.temperature.get? (n - 5),
       T.base.temperature.get? (n - 7), T.base.temperature.get? (n - 10),
       T.base.temperature.get? (n - 14),
       T.base.humidity.get? (n - 1), T.base.humidity.get? (n - 2),
       T.base.humidity.get? (n - 3), T.base.humidity.get? (n - 5),
       T.base.humidity.get? (n - 7), T.base.humidity.get? (n - 10),
       T.base.humidity.get? (n - 14)]
    else
      List.replicate 14 (some (listMean T.base.temperature)) ++
      List.replicate 14 (some (listMean T.base.humidity))
  calendar ++ lags ++
  [colLast T (.temp_ma 3), colLast T (.temp_ma 5), colLast T (.temp_ma 7),
   colLast T (.temp_ma 10), colLast T (.temp_ma 14), colLast T (.temp_ma 21),
   colLast T (.humidity_ma 3), colLast T (.humidity_ma 5), colLast T (.humidity_ma 7),
   colLast T (.humidity_ma 10), colLast T (.humidity_ma 14), colLast T (.humidity_ma 21),
   colLast T (.temp_median 3), colLast T (.temp_median 7), colLast T (.temp_median 14),
   colLast T (.humidity_median 3), colLast T (.humidity_median 7), colLast T (.humidity_median 14),
   colLast T (.temp_std 3), colLast T (.temp_std 7), colLast T (.temp_std 14),
   colLast T (.humidity_std 3), colLast T (.humidity_std 7), colLast T (.humidity_std 14),
   colLast T (.temp_range 3), colLast T (.temp_range 7), colLast T (.temp_range 14),
   colLast T (.humidity_range 3), colLast T (.humidity_range 7), colLast T (.humidity_range 14),
   colLast T (.temp_change 1), colLast T (.temp_change 3),
   colLast T (.humidity_change 1), colLast T (.humidity_change 3),
   colLast T (.temp_rank 7), colLast T (.temp_rank 14), colLast T (.temp_rank 30),
   colLast T (.humidity_rank 7), colLast T (.humidity_rank 14), colLast T (.humidity_rank 30),
   colLast T .temp_humidity_interaction, colLast T .temp_humidity_ratio,
   colLast T (.temp_trend 7), colLast T (.temp_trend 14),
   colLast T (.humidity_trend 7), colLast T (.humidity_trend 14)]

/-- `WeatherPredictor.calculate_time_weights`
(src/weather_prediction.py lines 29-53) on a table of `n` rows:
`weights[i] = decay_factor ** (n - 1 - i)`, then normalized by the total. -/
def calculate_time_weights (n : ℕ) (decay_factor : ℚ) : List ℚ :=
  let weights := (List.range n).map (fun i => decay_factor ^ (n - 1 - i))
  weights.map (fun x => x / weights.sum)

/-- Trig oracle plus an oracle for the real square root (used by the
analyzer's displayed standard deviations and Pearson correlations, whose
exact values are irrational and never load-bearing for the claims). -/
structure MathOracle extends TrigOracle where
  sqrt : ℚ → ℚ

/-- Oracles for the external machine-learning libraries: `fitScaler` is
sklearn `RobustScaler.fit` returning the fitted transform, and
`trainTemp`/`trainHum` are the two weighted XGBoost trainings
(`train_weighted_xgboost`) returning the fitted regressors as functions
from a scaled feature vector to a predicted value.  They receive exactly
the data the source passes: the scaled training matrix, the target column
and the per-sample weights. -/
structure Oracles extends MathOracle where
  fitScaler : List (List (Option ℚ)) → (List (Option ℚ) → List (Option ℚ))
  trainTemp : List (List (Option ℚ)) → List ℚ → List ℚ → (List (Option ℚ) → ℚ)
  trainHum : List (List (Option ℚ)) → List ℚ → List ℚ → (List (Option ℚ) → ℚ)

/-- One forecast row of the output DataFrame of `predict_weather`
(src/weather_prediction.py lines 314-321). -/
structure PredRow where
  date : ℤ
  temperature : ℚ
  humidity : ℚ
  month : ℕ
  year : ℤ
  is_prediction : Bool
deriving DecidableEq, Repr

/-- The failure surfaced by sklearn when `RobustScaler.transform` receives
a feature vector whose length differs from the number of features the
scaler was fitted on (a `ValueError` in Python). -/
inductive PredErr
  | widthMismatch (got expected : ℕ)
deriving DecidableEq, Repr

/-- The training matrix `data[available_features].values`: one row per
observation, the 71 `feature_cols` columns in order. -/
def trainMatrix (T : FeatTable) : List (List (Option ℚ)) :=
  (List.range T.base.numRows).map (fun i => featureCols.map (fun id => (T.col id).getD i none))

/-- `historical_data['date'].max()` (guarded non-empty in the pipeline). -/
def maxDate (d : ObsData) : ℤ :=
  match d.dates with
  | [] => 0
  | x :: xs => xs.foldl zMax x

/-- A Python `for` loop that appends one result per iteration and lets an
exception abort the whole computation. -/
def loopM {α β ε : Type} (g : α → Except ε β) : List α → Except ε (List β)
  | [] => Except.ok []
  | a :: l =>
      match g a with
      | Except.ok b => (loopM g l).map (fun bs => b :: bs)
      | Except.error e => Except.error e

/-- `data_with_features = self.create_advanced_features(historical_data)`
(src/weather_prediction.py line 239). -/
def featTableOf (O : Oracles) (hist : ObsData) : FeatTable :=
  create_advanced_features O.toTrigOracle hist

/-- The transform fitted by `self.scaler.fit_transform(X)` inside
`train_weighted_xgboost` (line 202); it is reused unchanged at
prediction time. -/
def scalerOf (O : Oracles) (hist : ObsData) : List (Option ℚ) → List (Option ℚ) :=
  O.fitScaler (trainMatrix (featTableOf O hist))

/-- The per-sample weights `weights * len(data)` (line 205). -/
def sampleWeightsOf (hist : ObsData) : List ℚ :=
  (calculate_time_weights hist.numRows (92 / 100)).map (fun x => x * (hist.numRows : ℚ))

/-- The fitted temperature regressor
(`train_weighted_xgboost(data, 'temperature', ...)`, lines 273-275). -/
def tempModelOf (O : Oracles) (hist : ObsData) : List (Option ℚ) → ℚ :=
  O.trainTemp ((trainMatrix (featTableOf O hist)).map (scalerOf O hist))
    hist.temperature (sampleWeightsOf hist)

/-- The fitted humidity regressor (lines 279-281). -/
def humModelOf (O : Oracles) (hist : ObsData) : List (Option ℚ) → ℚ :=
  O.trainHum ((trainMatrix (featTableOf O hist)).map (scalerOf O hist))
    hist.humidity (sampleWeightsOf hist)

/-- The feature vector the prediction loop builds for day offset `i`:
`_create_prediction_features(data_with_features, last_date + i)` — a
function of the historical feature table and the target date only. -/
def predFeaturesAt (O : Oracles) (hist : ObsData) (i : ℕ) : List (Option ℚ) :=
  create_prediction_features O.toTrigOracle (featTableOf O hist) (maxDate hist + (i : ℤ))

/-- One iteration of the prediction loop of `predict_weather`
(src/weather_prediction.py lines 295-321) for day offset `i`: build the
prediction features from the fixed feature table, scale them (the scaler
validates the feature count against the fitted width, `featureCols.length`),
predict with both models, clamp temperature to [-20, 40] and humidity to
[0, 100], and round to one decimal.  Returns the feature vector together
with the emitted row. -/
def predictStep (O : Oracles) (hist : ObsData) (i : ℕ) :
    Except PredErr (List (Option ℚ) × PredRow) :=
  let pd := maxDate hist + (i : ℤ)
  let f := predFeaturesAt O hist i
  if f.length = featureCols.length then
    let fs := scalerOf O hist f
    let t := pyMax (-20) (pyMin 40 (tempModelOf O hist fs))
    let h := pyMax 0 (pyMin 100 (humModelOf O hist fs))
    .ok (f, { date := pd, temperature := pyRound1 t, humidity := pyRound1 h,
              month := monthOf pd, year := yearOf pd, is_prediction := true })
  else .error (.widthMismatch f.length featureCols.length)

/-- `WeatherPredictor.predict_weather` (src/weather_prediction.py lines
221-333), instrumented to also return the feature vector each loop
iteration feeds to the models.  On empty input the source displays an
error and returns an empty DataFrame (`.ok []` here — no exception).
Otherwise: feature table, time weights (decay 0.92), scaler fit and model
training on the full feature matrix, then the day-by-day loop over
offsets 1..daysAhead.  The Streamlit display calls (`st.info`,
`_visualize_weights`, `_evaluate_model_performance`,
`_visualize_feature_importance`) are pure UI output and are not modelled. -/
def predictWithTrace (O : Oracles) (hist : ObsData) (daysAhead : ℕ) :
    Except PredErr (List (List (Option ℚ) × PredRow)) :=
  if hist.dates.isEmpty then .ok []
  else loopM (fun j => predictStep O hist (j + 1)) (List.range daysAhead)

/-- `WeatherPredictor.predict_weather`: the emitted forecast rows. -/
def predict_weather (O : Oracles) (hist : ObsData) (daysAhead : ℕ) :
    Except PredErr (List PredRow) :=
  (predictWithTrace O hist daysAhead).map (List.map Prod.snd)

/-- The z-score comparison `abs((value - mean) / std) > threshold` of the
outlier detectors, expressed without the irrational standard deviation:
for `std = sqrt v > 0`, `|x - m| / std > t` holds iff `t < 0` or
`t² · v < (x - m)²` (squaring both sides of an inequality of
nonnegatives).  `zScoreExceeds t v m x` is that decidable form. -/
def zScoreExceeds (t v m x : ℚ) : Bool :=
  decide (t < 0) || decide (t ^ 2 * v < (x - m) ^ 2)

/-- Common body of the two z-score outlier detectors
(`DataAnalyzer._detect_series_outliers`, src/data_analyzer.py lines
185-207, and the tail of `utils.detect_outliers`, src/utils.py lines
261-281): drop NaN, bail out below two clean values, compute clean mean
and std, bail out when `std == 0 or isnan(std) or std < 1e-10` (in
variance form: `v < 1e-20`; the variance of at least two rationals is
never NaN), then flag the original indices of non-missing values whose
z-score exceeds the threshold. -/
def detectOutliersCore (s : Col) (threshold : ℚ) : List ℕ :=
  let clean := s.filterMap id
  if clean.length < 2 then []
  else
    let m := listMean clean
    let v := sampleVar clean
    if v < 1 / 10 ^ 20 then []
    else
      s.enum.filterMap (fun p =>
        match p.2 with
        | none => none
        | some x => if zScoreExceeds threshold v m x then some p.1 else none)

/-- `DataAnalyzer._detect_series_outliers` (src/data_analyzer.py lines
185-207). -/
def detect_series_outliers (s : Col) (threshold : ℚ) : List ℕ :=
  detectOutliersCore s threshold

/-- `utils.detect_outliers` (src/utils.py lines 256-281): identical to the
analyzer's detector except for an additional early return on series
shorter than 2. -/
def detect_outliers (s : Col) (threshold : ℚ) : List ℕ :=
  if s.length < 2 then [] else detectOutliersCore s threshold

/-- Trend direction label: rising / falling / stable
(the source's Korean literals 상승 / 하락 / 안정). -/
inductive Direction
  | rising | falling | stable
deriving DecidableEq, Repr

/-- Trend / correlation strength label: strong / moderate / weak
(강함 / 보통 / 약함). -/
inductive Strength
  | strong | moderate | weak
deriving DecidableEq, Repr

/-- Three-way level label used for significance and volatility:
high / medium / low (높음 / 보통 / 낮음). -/
inductive LevelLabel
  | high | medium | low
deriving DecidableEq, Repr

/-- Correlation sign label (음의 상관관계 / 양의 상관관계). -/
inductive CorrDirection
  | negative | positive
deriving DecidableEq, Repr

/-- `data['date'].min()`. -/
def minDate (d : ObsData) : ℤ :=
  match d.dates with
  | [] => 0
  | x :: xs => xs.foldl zMin x

/-- `DataAnalyzer._get_basic_info` (src/data_analyzer.py lines 37-46).
The `strftime`-formatted strings are embedded as the underlying day
counts. -/
structure BasicInfo where
  total_days : ℕ
  date_range : ℤ × ℤ
  days_covered : ℤ
  data_completeness : ℚ
  latest_date : ℤ
  earliest_date : ℤ
deriving DecidableEq, Repr

/-- `DataAnalyzer._get_basic_info`. -/
def get_basic_info (d : ObsData) : BasicInfo :=
  { total_days := d.numRows
    date_range := (minDate d, maxDate d)
    days_covered := maxDate d - minDate d + 1
    data_completeness := (d.numRows : ℚ) / 30 * 100
    latest_date := maxDate d
    earliest_date := minDate d }

/-- pandas linear-interpolation quantile on a non-empty series
(`describe()`'s 25% / 75% rows). -/
def quantileQ (l : List ℚ) (q : ℚ) : ℚ :=
  let s := sortQ l
  let n := l.length
  let pos := q * ((n : ℚ) - 1)
  let i := (⌊pos⌋).toNat
  let frac := pos - (⌊pos⌋ : ℚ)
  if i + 1 < n then s.getD i 0 + frac * (s.getD (i + 1) 0 - s.getD i 0) else s.getD i 0

/-- Result record of `DataAnalyzer._analyze_temperature` /
`_analyze_humidity` (src/data_analyzer.py lines 48-136). -/
structure QuantityAnalysis where
  mean : ℚ
  std : ℚ
  min : ℚ
  max : ℚ
  median : ℚ
  q25 : ℚ
  q75 : ℚ
  range : ℚ
  trend_slope : ℚ
  trend_direction : Direction
  trend_strength : Strength
  volatility : ℚ
deriving Repr

/-- Common body of `_analyze_temperature` and `_analyze_humidity`, which
are textually identical up to the four classification thresholds
(direction cut `dirThr`, strength cuts `strongThr` > `modThr`); the
`dropna()` is the identity on the dense observation columns.  Empty input
returns the all-zero / stable / weak record of the source's early return. -/
def analyze_quantity (O : MathOracle) (vals : List ℚ)
    (dirThr strongThr modThr : ℚ) : QuantityAnalysis :=
  if vals.isEmpty then
    ⟨0, 0, 0, 0, 0, 0, 0, 0, 0, .stable, .weak, 0⟩
  else
    let slope := if 1 < vals.length then polyfitSlope vals else 0
    let dir : Direction :=
      if 1 < vals.length then
        if dirThr < slope then .rising else if slope < -dirThr then .falling else .stable
      else .stable
    let str : Strength :=
      if 1 < vals.length then
        if strongThr < |slope| then .strong else if modThr < |slope| then .moderate else .weak
      else .weak
    let m := listMean vals
    let sd := O.sqrt (sampleVar vals)
    { mean := pyRound1 m
      std := pyRound1 sd
      min := pyRound1 ((listMin vals).getD 0)
      max := pyRound1 ((listMax vals).getD 0)
      median := pyRound1 ((listMedian vals).getD 0)
      q25 := pyRound1 (quantileQ vals (1 / 4))
      q75 := pyRound1 (quantileQ vals (3 / 4))
      range := pyRound1 ((listMax vals).getD 0 - (listMin vals).getD 0)
      trend_slope := pyRound3 slope
      trend_direction := dir
      trend_strength := str
      volatility := if m ≠ 0 then pyRound1 (sd / m * 100) else 0 }

/-- `DataAnalyzer._analyze_temperature`: thresholds 0.1 / 0.5 / 0.2. -/
def analyze_temperature (O : MathOracle) (d : ObsData) : QuantityAnalysis :=
  analyze_quantity O d.temperature (1 / 10) (1 / 2) (1 / 5)

/-- `DataAnalyzer._analyze_humidity`: thresholds 0.5 / 2.0 / 1.0. -/
def analyze_humidity (O : MathOracle) (d : ObsData) : QuantityAnalysis :=
  analyze_quantity O d.humidity (1 / 2) 2 1

/-- Distinct elements in first-appearance order (`Series.unique`). -/
def dedupFirst (l : List ℕ) : List ℕ :=
  l.foldl (fun acc x => if x ∈ acc then acc else acc ++ [x]) []

/-- `Series.value_counts()`: (value, count) pairs ordered by descending
count; pandas leaves the order of equal counts unspecified, embedded here
as first-appearance order via a stable sort. -/
def valueCounts (l : List ℕ) : List (ℕ × ℕ) :=
  ((dedupFirst l).map (fun v => (v, l.count v))).mergeSort
    (fun a b => decide (b.2 ≤ a.2))

/-- The month column of the loaded table (the loader derives it from the
date). -/
def monthsOf (d : ObsData) : List ℕ := d.dates.map monthOf

/-- Per-month statistics of `_analyze_monthly_patterns`
(src/data_analyzer.py lines 138-161); `none` models the NaN standard
deviation of a single-row month. -/
structure MonthStats where
  count : ℕ
  percentage : ℚ
  temp_mean : ℚ
  humidity_mean : ℚ
  temp_std : Option ℚ
  humidity_std : Option ℚ
deriving DecidableEq, Repr

/-- Result record of `_analyze_monthly_patterns`; `none` for
`primary_month` / `most_common_month` models the '없음' placeholder of an
empty count table. -/
structure MonthlyAnalysis where
  primary_month : Option ℕ
  month_distribution : List (ℕ × ℕ)
  month_count : ℕ
  month_stats : List (ℕ × MonthStats)
  most_common_month : Option ℕ
  monthly_variation : ℚ
deriving DecidableEq, Repr

/-- `DataAnalyzer._analyze_monthly_patterns`. -/
def analyze_monthly_patterns (O : MathOracle) (d : ObsData) : MonthlyAnalysis :=
  let ms := monthsOf d
  let counts := valueCounts ms
  let rows := ms.zip (d.temperature.zip d.humidity)
  let statsFor := fun (mo : ℕ) =>
    let sel := rows.filter (fun r => decide (r.1 = mo))
    let temps := sel.map (fun r => r.2.1)
    let hums := sel.map (fun r => r.2.2)
    { count := sel.length
      percentage := pyRound1 ((sel.length : ℚ) / (d.numRows : ℚ) * 100)
      temp_mean := pyRound1 (listMean temps)
      humidity_mean := pyRound1 (listMean hums)
      temp_std := if temps.length < 2 then none else some (pyRound1 (O.sqrt (sampleVar temps)))
      humidity_std := if hums.length < 2 then none else some (pyRound1 (O.sqrt (sampleVar hums)))
      : MonthStats }
  { primary_month := (counts.head?).map Prod.fst
    month_distribution := counts
    month_count := counts.length
    month_stats := (dedupFirst ms).map (fun mo => (mo, statsFor mo))
    most_common_month := (counts.head?).map Prod.fst
    monthly_variation :=
      if 1 < counts.length then
        pyRound1 (O.sqrt (sampleVar (counts.map (fun c => (c.2 : ℚ)))))
      else 0 }

/-- Per-quantity slice of `_detect_outliers` (src/data_analyzer.py lines
163-183): indices, values and dates of the flagged rows. -/
structure SeriesOutliers where
  count : ℕ
  indices : List ℕ
  values : List ℚ
  dates : List ℤ
deriving DecidableEq, Repr

/-- Result record of `_detect_outliers`. -/
structure OutlierAnalysis where
  temperature_outliers : SeriesOutliers
  humidity_outliers : SeriesOutliers
  total_outliers : ℕ
  outlier_percentage : ℚ
deriving DecidableEq, Repr

/-- One quantity's slice of `_detect_outliers`. -/
def seriesOutliersFor (d : ObsData) (vals : List ℚ) (threshold : ℚ) : SeriesOutliers :=
  let idx := detect_series_outliers (vals.map some) threshold
  { count := idx.length
    indices := idx
    values := idx.filterMap (fun i => vals.get? i)
    dates := idx.filterMap (fun i => d.dates.get? i) }

/-- `DataAnalyzer._detect_outliers` with its default threshold 2.0. -/
def detect_outliers_analysis (d : ObsData) (threshold : ℚ) : OutlierAnalysis :=
  let t := seriesOutliersFor d d.temperature threshold
  let h := seriesOutliersFor d d.humidity threshold
  { temperature_outliers := t
    humidity_outliers := h
    total_outliers := t.count + h.count
    outlier_percentage := pyRound1 (((t.count + h.count : ℕ) : ℚ) / ((d.numRows : ℚ) * 2) * 100) }

/-- Per-quantity slice of `_analyze_trends` (src/data_analyzer.py lines
209-241). -/
structure TrendInfo where
  slope : ℚ
  direction : Direction
  strength : Strength
  r_squared : ℚ
  significance : LevelLabel
deriving DecidableEq, Repr

/-- Result of `_analyze_trends`: the source omits a quantity's entry from
the dict when the series has fewer than two rows (`none` here). -/
structure TrendAnalysis where
  temperature : Option TrendInfo
  humidity : Option TrendInfo
deriving DecidableEq, Repr

/-- One quantity of `_analyze_trends`, with its direction / strength
thresholds. -/
def trendInfoFor (vals : List ℚ) (dirThr strongThr modThr : ℚ) : Option TrendInfo :=
  if 1 < vals.length then
    let slope := polyfitSlope vals
    let r2 := calculate_r_squared vals
    some { slope := pyRound3 slope
           direction := if dirThr < slope then .rising
                        else if slope < -dirThr then .falling else .stable
           strength := if strongThr < |slope| then .strong
                       else if modThr < |slope| then .moderate else .weak
           r_squared := pyRound3 r2
           significance := if 7 / 10 < r2 then .high
                           else if 3 / 10 < r2 then .medium else .low }
  else none

/-- `DataAnalyzer._analyze_trends` (temperature thresholds 0.1/0.5/0.2,
humidity thresholds 0.5/2.0/1.0). -/
def analyze_trends (d : ObsData) : TrendAnalysis :=
  { temperature := trendInfoFor d.temperature (1 / 10) (1 / 2) (1 / 5)
    humidity := trendInfoFor d.humidity (1 / 2) 2 1 }

/-- Pearson correlation of two equal-length dense series
(pandas `Series.corr`): `none` models the NaN returned on degenerate
input (fewer than two pairs, or zero variance on either side). -/
def pearsonCorr (O : MathOracle) (xs ys : List ℚ) : Option ℚ :=
  let n := Nat.min xs.length ys.length
  let x := xs.take n
  let y := ys.take n
  let mx := listMean x
  let my := listMean y
  let num := (List.zipWith (fun a b => (a - mx) * (b - my)) x y).sum
  let denx := (x.map (fun a => (a - mx) ^ 2)).sum
  let deny := (y.map (fun b => (b - my) ^ 2)).sum
  if n < 2 ∨ denx * deny = 0 then none else some (num / O.sqrt (denx * deny))

/-- One entry of `_analyze_correlations` (src/data_analyzer.py lines
257-296): the rounded coefficient (none = NaN) with its labels.  The
labels follow the source's comparisons, under which NaN compares false:
a NaN coefficient is labelled weak and positive. -/
structure CorrInfo where
  correlation : Option ℚ
  strength : Strength
  direction : CorrDirection
deriving DecidableEq, Repr

/-- Build one `CorrInfo` from a raw coefficient, mirroring
`_interpret_correlation` and the sign test. -/
def corrInfoOf (r : Option ℚ) : CorrInfo :=
  { correlation := r.map pyRound3
    strength := match r with
      | none => .weak
      | some v => if 7 / 10 ≤ |v| then .strong else if 3 / 10 ≤ |v| then .moderate else .weak
    direction := match r with
      | none => .positive
      | some v => if v < 0 then .negative else .positive }

/-- Result record of `_analyze_correlations`. -/
structure CorrelationAnalysis where
  temperature_humidity : CorrInfo
  time_temperature : CorrInfo
  time_humidity : CorrInfo
deriving DecidableEq, Repr

/-- `DataAnalyzer._analyze_correlations`. -/
def analyze_correlations (O : MathOracle) (d : ObsData) : CorrelationAnalysis :=
  let timeIdx := (List.range d.numRows).map (fun i => (i : ℚ))
  { temperature_humidity := corrInfoOf (pearsonCorr O d.temperature d.humidity)
    time_temperature := corrInfoOf (pearsonCorr O d.temperature timeIdx)
    time_humidity := corrInfoOf (pearsonCorr O d.humidity timeIdx) }

/-- `DataAnalyzer._calculate_daily_changes` (src/data_analyzer.py lines
326-337): statistics of `series.diff().dropna()`; `none` models the NaN
mean/max/min of the empty change list of a single-row series. -/
structure DailyChanges where
  mean_change : Option ℚ
  max_increase : Option ℚ
  max_decrease : Option ℚ
  positive_changes : ℕ
  negative_changes : ℕ
  no_change : ℕ
deriving DecidableEq, Repr

/-- `DataAnalyzer._calculate_daily_changes`. -/
def calculate_daily_changes (vals : List ℚ) : DailyChanges :=
  let changes := (diffCol 1 vals).filterMap id
  { mean_change := if changes.isEmpty then none else some (pyRound2 (listMean changes))
    max_increase := (listMax changes).map pyRound2
    max_decrease := (listMin changes).map pyRound2
    positive_changes := changes.countP (fun c => decide (0 < c))
    negative_changes := changes.countP (fun c => decide (c < 0))
    no_change := changes.countP (fun c => decide (c = 0)) }

/-- Per-quantity slice of `_analyze_volatility` (src/data_analyzer.py
lines 298-324); `none` values model NaN (std of a single row).  The level
label follows the source's NaN-compares-false semantics. -/
structure VolInfo where
  std : Option ℚ
  coefficient_of_variation : Option ℚ
  level : LevelLabel
  daily_changes : DailyChanges
deriving DecidableEq, Repr

/-- One quantity of `_analyze_volatility` with its level thresholds. -/
def volInfoFor (O : MathOracle) (vals : List ℚ) (hiThr modThr : ℚ) : VolInfo :=
  let m := listMean vals
  let sd : Option ℚ := if vals.length < 2 then none else some (O.sqrt (sampleVar vals))
  let cv : Option ℚ := if m ≠ 0 then sd.map (fun s => s / m * 100) else some 0
  { std := sd.map pyRound2
    coefficient_of_variation := cv.map pyRound1
    level := match cv with
      | none => .low
      | some v => if hiThr < v then .high else if modThr < v then .medium else .low
    daily_changes := calculate_daily_changes vals }

/-- Result record of `_analyze_volatility` (temperature thresholds 30/15,
humidity thresholds 25/12). -/
structure VolatilityAnalysis where
  temperature : VolInfo
  humidity : VolInfo
deriving DecidableEq, Repr

/-- `DataAnalyzer._analyze_volatility`. -/
def analyze_volatility (O : MathOracle) (d : ObsData) : VolatilityAnalysis :=
  { temperature := volInfoFor O d.temperature 30 15
    humidity := volInfoFor O d.humidity 25 12 }

/-- The full analysis bundle built by `DataAnalyzer.analyze_30day_data`
(src/data_analyzer.py lines 24-33). -/
structure Analysis where
  basic_info : BasicInfo
  temperature_analysis : QuantityAnalysis
  humidity_analysis : QuantityAnalysis
  monthly_analysis : MonthlyAnalysis
  outlier_analysis : OutlierAnalysis
  trend_analysis : TrendAnalysis
  correlation_analysis : CorrelationAnalysis
  volatility_analysis : VolatilityAnalysis
deriving Repr

/-- `DataAnalyzer.analyze_30day_data` (src/data_analyzer.py lines 19-35):
on an empty table the source returns the empty dict `{}` (embedded as
`none`); otherwise the eight-section bundle.  No exception is raised on
any input. -/
def analyze_30day_data (O : MathOracle) (d : ObsData) : Option Analysis :=
  if d.dates.isEmpty then none
  else some
    { basic_info := get_basic_info d
      temperature_analysis := analyze_temperature O d
      humidity_analysis := analyze_humidity O d
      monthly_analysis := analyze_monthly_patterns O d
      outlier_analysis := detect_outliers_analysis d 2
      trend_analysis := analyze_trends d
      correlation_analysis := analyze_correlations O d
      volatility_analysis := analyze_volatility O d }

/-- A Python object relevant to the pipeline: an observation DataFrame, a
feature DataFrame under construction (base columns plus the feature
columns assigned so far, in assignment order), or a forecast DataFrame. -/
inductive PyObj
  | obs (d : ObsData)
  | feat (base : ObsData) (cols : List (FeatureId × Col))
  | pred (rows : List PredRow)
deriving Repr

/-- The Python heap: objects addressed by allocation index.  New objects
are appended; `df[...] = ...` mutates in place via `heapSet`. -/
abbrev Heap := List PyObj

/-- In-place mutation of the object at reference `r`. -/
def heapSet (h : Heap) (r : ℕ) (v : PyObj) : Heap := h.set r v

/-- Read an observation frame from the heap (the pipeline only passes
observation-frame references here). -/
def readObs (h : Heap) (r : ℕ) : ObsData :=
  match h.get? r with
  | some (.obs d) => d
  | _ => ⟨[], [], []⟩

/-- The feature columns of a feature frame on the heap. -/
def colsOf (h : Heap) (r : ℕ) : List (FeatureId × Col) :=
  match h.get? r with
  | some (.feat _ cols) => cols
  | _ => []

/-- The order in which `create_advanced_features` assigns its feature
columns (src/weather_prediction.py lines 68-135): calendar block, then
lags interleaved per lag value, rolling means, medians, stds, ranges,
changes (1-day pair before 3-day pair), ranks, interactions, trends
interleaved per window. -/
def featureAssignOrder : List FeatureId :=
  [.day_of_year, .month, .day, .day_of_week, .quarter,
   .season_sin, .season_cos, .month_sin, .month_cos, .week_sin, .week_cos,
   .temp_lag 1, .humidity_lag 1, .temp_lag 2, .humidity_lag 2, .temp_lag 3, .humidity_lag 3,
   .temp_lag 5, .humidity_lag 5, .temp_lag 7, .humidity_lag 7, .temp_lag 10, .humidity_lag 10,
   .temp_lag 14, .humidity_lag 14,
   .temp_ma 3, .humidity_ma 3, .temp_ma 5, .humidity_ma 5, .temp_ma 7, .humidity_ma 7,
   .temp_ma 10, .humidity_ma 10, .temp_ma 14, .humidity_ma 14, .temp_ma 21, .humidity_ma 21,
   .temp_median 3, .humidity_median 3, .temp_median 7, .humidity_median 7,
   .temp_median 14, .humidity_median 14,
   .temp_std 3, .humidity_std 3, .temp_std 7, .humidity_std 7, .temp_std 14, .humidity_std 14,
   .temp_range 3, .humidity_range 3, .temp_range 7, .humidity_range 7,
   .temp_range 14, .humidity_range 14,
   .temp_change 1, .humidity_change 1, .temp_change 3, .humidity_change 3,
   .temp_rank 7, .humidity_rank 7, .temp_rank 14, .humidity_rank 14,
   .temp_rank 30, .humidity_rank 30,
   .temp_humidity_interaction, .temp_humidity_ratio,
   .temp_trend 7, .humidity_trend 7, .temp_trend 14, .humidity_trend 14]

/-- Heap-level `create_advanced_features`: `df = data.copy()` allocates a
fresh frame (line 65), each `df[...] = ...` assignment mutates that fresh
frame in place, and the final `df = df.bfill().ffill()` (line 138) binds a
new, filled frame, which is returned.  The caller's frame at `r` is only
read. -/
def create_advanced_features_heap (O : TrigOracle) (h : Heap) (r : ℕ) : Heap × ℕ :=
  let d := readObs h r
  let ref := h.length
  let h1 := h ++ [PyObj.feat d []]
  let h2 := featureAssignOrder.foldl
    (fun hh id => heapSet hh ref (PyObj.feat d (colsOf hh ref ++ [(id, rawColumn O d id)]))) h1
  let h3 := h2 ++ [PyObj.feat d ((colsOf h2 ref).map (fun p => (p.1, fillCol p.2)))]
  (h3, h2.length)

/-- Heap-level `predict_weather`: reads the caller's series, builds the
feature frame through `create_advanced_features_heap`, and allocates the
predictions DataFrame (the computed values are those of the pure
embedding `predict_weather`).  Returns the heap and the reference of the
result frame (or the scaler's width error). -/
def predict_weather_heap (O : Oracles) (h : Heap) (r : ℕ) (daysAhead : ℕ) :
    Heap × Except PredErr ℕ :=
  let d := readObs h r
  if d.dates.isEmpty then (h ++ [PyObj.pred []], Except.ok h.length)
  else
    let h1 := (create_advanced_features_heap O.toTrigOracle h r).1
    match predict_weather O d daysAhead with
    | Except.ok rows => (h1 ++ [PyObj.pred rows], Except.ok h1.length)
    | Except.error e => (h1, Except.error e)

/-- The kinds of rolling statistic used by the feature builder
(spec §4.1 `rollingStat`): mean, std, median, min, max, rank_pct. -/
inductive RollKind
  | mean | std | median | min | max | rank_pct
deriving DecidableEq, Repr

/-- The aggregator each rolling kind applies to a window — the same
aggregators `rawColumn` uses. -/
def rollKindAgg : RollKind → (List ℚ → Option ℚ)
  | .mean => meanW
  | .std => stdW
  | .median => medianW
  | .min => minW
  | .max => maxW
  | .rank_pct => rankW

/-- `rollingStat(series, window, kind)`:
`series.rolling(window := w, min_periods := 1).{kind}()`. -/
def rollingStat (kind : RollKind) (w : ℕ) (xs : List ℚ) : Col :=
  rollingApply (rollKindAgg kind) w xs

/-- An exactly linear series `y_i = a + b·i` of length n. -/
def linList (a b : ℚ) (n : ℕ) : List ℚ := (List.range n).map (fun (i : ℕ) => a + b * (i : ℚ))

/-- Decidable equality of pipeline results. -/
instance {ε α : Type} [DecidableEq ε] [DecidableEq α] : DecidableEq (Except ε α) := fun x y =>
  match x, y with
  | .ok a, .ok b =>
      if h : a = b then isTrue (by rw [h]) else isFalse (by intro hh; cases hh; exact h rfl)
  | .error e, .error f =>
      if h : e = f then isTrue (by rw [h]) else isFalse (by intro hh; cases hh; exact h rfl)
  | .ok _, .error _ => isFalse (by intro hh; cases hh)
  | .error _, .ok _ => isFalse (by intro hh; cases hh)

/-- Concrete oracle bundle used by witnesses and counterexamples: zero
trigonometry and square root, identity scaler, and regressors that
constantly predict `t` (temperature) and `h` (humidity). -/
def constOracles (t h : ℚ) : Oracles :=
  { sin2pi := fun _ => 0
    cos2pi := fun _ => 1
    sqrt := fun _ => 0
    fitScaler := fun _ => id
    trainTemp := fun _ _ _ => fun _ => t
    trainHum := fun _ _ _ => fun _ => h }

/-- A one-row history: 2024-01-01 (day 19723), 20 °C, 50 %. -/
def obsOne : ObsData := ⟨[19723], [20], [50]⟩

/-- A two-row history: 2024-01-01 and 2024-01-02. -/
def obsTwo : ObsData := ⟨[19723, 19724], [20, 22], [50, 55]⟩

/-- A 14-row constant history starting 2024-01-01: the shortest history
for which the prediction-feature vector has the trained width. -/
def obsFourteen : ObsData :=
  ⟨(List.range 14).map (fun i => 19723 + (i : ℤ)),
   List.replicate 14 20, List.replicate 14 50⟩

/-- The forecast row the loop emits for day offset `i` when the scaler
accepts the feature vector (lines 310-321 of the source): model outputs on
the scaled features, clamped and rounded, with calendar fields of the
target date. -/
def predRowAt (O : Oracles) (hist : ObsData) (i : ℕ) : PredRow :=
  { date := maxDate hist + (i : ℤ)
    temperature := pyRound1 (pyMax (-20) (pyMin 40
      (tempModelOf O hist (scalerOf O hist (predFeaturesAt O hist i)))))
    humidity := pyRound1 (pyMax 0 (pyMin 100
      (humModelOf O hist (scalerOf O hist (predFeaturesAt O hist i)))))
    month := monthOf (maxDate hist + (i : ℤ))
    year := yearOf (maxDate hist + (i : ℤ))
    is_prediction := true }

/-! ### Lemmas about the embedded pandas primitives -/

/-- Entry lookup in a column built by mapping over the index range. -/
theorem rangeMap_getElem? {α : Type} (g : ℕ → α) {n i : ℕ} (hi : i < n) :
    ((List.range n).map g)[i]? = some (g i) := by
  rw [List.getElem?_map, List.getElem?_range hi]
  rfl

/-- The buffer truncation of `rollingGo` absorbs across appends. -/
theorem lastN_absorb (w : ℕ) (A B : List ℚ) :
    lastN w (lastN w A ++ B) = lastN w (A ++ B) := by
  unfold lastN
  rw [show A.drop (A.length - w) ++ B = (A ++ B).drop (A.length - w) from
        (List.drop_append_of_le_length (Nat.sub_le _ _)).symm, List.drop_drop]
  congr 1
  simp only [List.length_append, List.length_drop]
  omega

/-- The operational rolling walk equals the per-index window description. -/
theorem rollingGo_eq_map (f : List ℚ → Option ℚ) (w : ℕ) :
    ∀ (rest seen : List ℚ),
      rollingGo f w (lastN w seen) rest =
        (List.range rest.length).map (fun i => f (lastN w (seen ++ rest.take (i + 1))))
  | [], _ => rfl
  | x :: rest, seen => by
      show f (lastN w (lastN w seen ++ [x])) ::
          rollingGo f w (lastN w (lastN w seen ++ [x])) rest = _
      rw [lastN_absorb, rollingGo_eq_map f w rest (seen ++ [x])]
      simp [List.range_succ_eq_map, List.map_map, Function.comp_def, List.append_assoc]

/-- `rollingApply` in per-index window form. -/
theorem rollingApply_eq_map (f : List ℚ → Option ℚ) (w : ℕ) (xs : List ℚ) :
    rollingApply f w xs =
      (List.range xs.length).map (fun i => f (lastN w (xs.take (i + 1)))) := by
  have h0 : lastN w ([] : List ℚ) = [] := by simp [lastN]
  unfold rollingApply
  rw [← h0, rollingGo_eq_map f w xs []]
  simp

/-- A rolling column has one entry per input row. -/
theorem rollingApply_length (f : List ℚ → Option ℚ) (w : ℕ) (xs : List ℚ) :
    (rollingApply f w xs).length = xs.length := by
  rw [rollingApply_eq_map]; simp

/-- The value of a rolling column at index `i` is the aggregator applied to
exactly the window of indices max(0, i-w+1)..i. -/
theorem rollingApply_getElem? (f : List ℚ → Option ℚ) (w : ℕ) (xs : List ℚ) (i : ℕ)
    (hi : i < xs.length) :
    (rollingApply f w xs)[i]? = some (f ((xs.take (i + 1)).drop (i + 1 - w))) := by
  rw [rollingApply_eq_map, rangeMap_getElem? _ hi]
  unfold lastN
  rw [List.length_take]
  congr 3
  omega

/-- Rolling columns are causal: appending rows leaves earlier entries
unchanged. -/
theorem rollingApply_append_getElem? (f : List ℚ → Option ℚ) (w : ℕ) (A B : List ℚ)
    (i : ℕ) (hi : i < A.length) :
    (rollingApply f w (A ++ B))[i]? = (rollingApply f w A)[i]? := by
  rw [rollingApply_getElem? f w _ i (by simp; omega), rollingApply_getElem? f w A i hi,
    List.take_append_of_le_length (by omega)]

/-- `shift` entry description. -/
theorem shiftCol_getElem? (k : ℕ) (xs : List ℚ) (i : ℕ) (hi : i < xs.length) :
    (shiftCol k xs)[i]? = some (if k ≤ i then xs[i - k]? else none) := by
  unfold shiftCol
  rw [rangeMap_getElem? _ hi]
  simp

/-- `shift` is causal. -/
theorem shiftCol_append_getElem? (k : ℕ) (A B : List ℚ) (i : ℕ) (hi : i < A.length) :
    (shiftCol k (A ++ B))[i]? = (shiftCol k A)[i]? := by
  rw [shiftCol_getElem? k _ i (by simp; omega), shiftCol_getElem? k A i hi]
  by_cases h : k ≤ i
  · rw [if_pos h, if_pos h, List.getElem?_append_left (by omega)]
  · rw [if_neg h, if_neg h]

/-- `diff` entry description. -/
theorem diffCol_getElem? (k : ℕ) (xs : List ℚ) (i : ℕ) (hi : i < xs.length) :
    (diffCol k xs)[i]? =
      some (if k ≤ i then (xs.get? i).bind (fun a => (xs.get? (i - k)).map (fun b => a - b))
            else none) := by
  unfold diffCol
  rw [rangeMap_getElem? _ hi]

/-- `diff` is causal. -/
theorem diffCol_append_getElem? (k : ℕ) (A B : List ℚ) (i : ℕ) (hi : i < A.length) :
    (diffCol k (A ++ B))[i]? = (diffCol k A)[i]? := by
  rw [diffCol_getElem? k _ i (by simp; omega), diffCol_getElem? k A i hi]
  by_cases h : k ≤ i
  · rw [if_pos h, if_pos h]
    simp only [List.get?_eq_getElem?]
    rw [show (A ++ B)[i]? = A[i]? from List.getElem?_append_left hi,
      show (A ++ B)[i - k]? = A[i - k]? from List.getElem?_append_left (by omega)]
  · rw [if_neg h, if_neg h]

/-- Mapped columns (calendar features) are causal. -/
theorem mapCol_append_getElem? {α β : Type} (f : α → β) (A B : List α) (i : ℕ)
    (hi : i < A.length) :
    ((A ++ B).map f)[i]? = (A.map f)[i]? := by
  rw [List.map_append, List.getElem?_append_left (by simp [hi])]

/-- Entry description of `zipWith`. -/
theorem zipWith_getElem? {α β γ : Type} (f : α → β → γ) :
    ∀ (A : List α) (B : List β) (i : ℕ),
      (List.zipWith f A B)[i]? = (A[i]?).bind (fun a => (B[i]?).map (f a))
  | [], _, _ => by simp
  | _ :: _, [], _ => by simp
  | a :: A, b :: B, 0 => by simp
  | a :: A, b :: B, i + 1 => by
      simp only [List.zipWith_cons_cons, List.getElem?_cons_succ]
      exact zipWith_getElem? f A B i

/-- `bfill` preserves the column length. -/
theorem bfillCol_length (l : Col) : (bfillCol l).length = l.length := by
  simp [bfillCol]

/-- `ffill` preserves the column length. -/
theorem ffillCol_length (l : Col) : (ffillCol l).length = l.length := by
  simp [ffillCol]

/-- `fillCol` preserves the column length. -/
theorem fillCol_length (l : Col) : (fillCol l).length = l.length := by
  simp [fillCol, ffillCol_length, bfillCol_length]

/-- Entry description of `bfill`. -/
theorem bfillCol_getElem? (l : Col) (i : ℕ) (hi : i < l.length) :
    (bfillCol l)[i]? = some (((l.drop i).filterMap id).head?) :=
  rangeMap_getElem? _ hi

/-- Entry description of `ffill`. -/
theorem ffillCol_getElem? (l : Col) (i : ℕ) (hi : i < l.length) :
    (ffillCol l)[i]? = some (((l.take (i + 1)).filterMap id).getLast?) :=
  rangeMap_getElem? _ hi

/-- `bfill` leaves non-missing entries unchanged. -/
theorem bfillCol_defined {l : Col} {i : ℕ} {v : ℚ} (h : l[i]? = some (some v)) :
    (bfillCol l)[i]? = some (some v) := by
  have hi : i < l.length := by
    by_contra hc
    rw [List.getElem?_eq_none (by omega)] at h
    exact Option.noConfusion h
  rw [bfillCol_getElem? l i hi]
  have hv : l[i] = some v := by
    have := List.getElem?_eq_getElem hi
    rw [this] at h
    exact Option.some.inj h
  rw [List.drop_eq_getElem_cons hi, hv]
  simp

/-- `ffill` leaves non-missing entries unchanged. -/
theorem ffillCol_defined {l : Col} {i : ℕ} {v : ℚ} (h : l[i]? = some (some v)) :
    (ffillCol l)[i]? = some (some v) := by
  have hi : i < l.length := by
    by_contra hc
    rw [List.getElem?_eq_none (by omega)] at h
    exact Option.noConfusion h
  rw [ffillCol_getElem? l i hi, List.take_succ, h]
  simp

/-- The backward/forward fill leaves non-missing entries unchanged. -/
theorem fillCol_defined {l : Col} {i : ℕ} {v : ℚ} (h : l[i]? = some (some v)) :
    (fillCol l)[i]? = some (some v) :=
  ffillCol_defined (bfillCol_defined h)

/-- A `bfill`ed entry is non-missing as soon as some entry at or after it
is non-missing. -/
theorem bfillCol_isSome {l : Col} {i j : ℕ} {v : ℚ} (hi : i < l.length) (hij : i ≤ j)
    (hj : l[j]? = some (some v)) : ∃ u, (bfillCol l)[i]? = some (some u) := by
  rw [bfillCol_getElem? l i hi]
  have hdrop : (l.drop i)[j - i]? = some (some v) := by
    rw [List.getElem?_drop]
    rw [show i + (j - i) = j by omega]
    exact hj
  have hmem : (some v) ∈ l.drop i := List.getElem?_mem hdrop
  have hfm : v ∈ (l.drop i).filterMap id := List.mem_filterMap.mpr ⟨some v, hmem, rfl⟩
  have hne : (l.drop i).filterMap id ≠ [] := List.ne_nil_of_mem hfm
  exact ⟨((l.drop i).filterMap id).head hne, by rw [List.head?_eq_head hne]⟩

/-- Python loop lemma: when every iteration succeeds with a described
value, the loop returns the map of that description. -/
theorem loopM_ok_of {α β ε : Type} (g : α → Except ε β) (F : α → β) :
    ∀ (l : List α), (∀ a ∈ l, g a = .ok (F a)) → loopM g l = .ok (l.map F)
  | [], _ => rfl
  | a :: l, h => by
      have ha := h a (List.mem_cons_self a l)
      have hl := loopM_ok_of g F l (fun b hb => h b (List.mem_cons_of_mem a hb))
      simp [loopM, ha, hl, Except.map]

/-- Python loop lemma: every element of a successful loop's output comes
from a successful iteration. -/
theorem loopM_mem {α β ε : Type} (g : α → Except ε β) :
    ∀ (l : List α) (out : List β), loopM g l = .ok out →
      ∀ b ∈ out, ∃ a ∈ l, g a = .ok b
  | [], out, h => by
      simp only [loopM] at h
      cases h
      intro b hb
      exact absurd hb (List.not_mem_nil b)
  | a :: l, out, h => by
      intro b hb
      simp only [loopM] at h
      rcases hga : g a with e | b0 <;> rw [hga] at h
      · exact Except.noConfusion h
      · rcases hl : loopM g l with e | bs <;> rw [hl] at h
        · exact Except.noConfusion h
        · simp only [Except.map] at h
          cases h
          rcases hb with _ | hb
          · exact ⟨a, List.mem_cons_self a l, hga⟩
          · rcases loopM_mem g l bs hl b (by assumption) with ⟨c, hc, hgc⟩
            exact ⟨c, List.mem_cons_of_mem a hc, hgc⟩

/-! ### Claim C5: the recency weight vector -/

/-- Dividing every list element by a constant divides the sum. -/
theorem list_sum_map_div {α : Type} (l : List α) (f : α → ℚ) (S : ℚ) :
    (l.map (fun x => f x / S)).sum = (l.map f).sum / S := by
  induction l with
  | nil => simp
  | cons x t ih => simp [ih, add_div]

/-- The unnormalized time weights are `d ^ (n-1-i)` over the index range. -/
theorem calculate_time_weights_eq (n : ℕ) (d : ℚ) :
    calculate_time_weights n d =
      (List.range n).map (fun i =>
        d ^ (n - 1 - i) / ((List.range n).map (fun i => d ^ (n - 1 - i))).sum) := by
  simp [calculate_time_weights, List.map_map, Function.comp_def]

/-- The total of the raw decay weights is positive for `n ≥ 1`, `d > 0`. -/
theorem rawWeights_sum_pos (n : ℕ) (d : ℚ) (hn : 1 ≤ n) (hd : 0 < d) :
    0 < ((List.range n).map (fun i => d ^ (n - 1 - i))).sum := by
  apply List.sum_pos
  · intro x hx
    rcases List.mem_map.mp hx with ⟨i, _, rfl⟩
    exact pow_pos hd _
  · intro hcon
    have : n = 0 := by
      have := congrArg List.length hcon
      simpa using this
    omega

/-- C5 (counterexample): as stated, the claim quantifies over every length
n; at n = 0 `calculate_time_weights` returns the empty vector, whose total
is 0, not 1 (the source divides the all-zero empty array by a zero sum and
returns an empty array). -/
theorem C5_counterexample :
    (calculate_time_weights 0 (92 / 100)).sum = 0 ∧ (0 : ℚ) ≠ 1 := by
  constructor
  · simp [calculate_time_weights]
  · norm_num

/-- C5 (amended): for every n ≥ 1 and decay factor d ∈ (0,1), the weight
vector sums to exactly 1, is strictly increasing from index 0 to n-1, and
weight i is proportional (with a positive constant) to d^(n-1-i). -/
theorem C5_weights_thm (n : ℕ) (d : ℚ) (hn : 1 ≤ n) (hd0 : 0 < d) (hd1 : d < 1) :
    (calculate_time_weights n d).sum = 1 ∧
    (∀ i j : ℕ, i < j → j < n → ∀ wi wj : ℚ,
      (calculate_time_weights n d)[i]? = some wi →
      (calculate_time_weights n d)[j]? = some wj → wi < wj) ∧
    (∃ Z : ℚ, 0 < Z ∧ ∀ i : ℕ, i < n →
      (calculate_time_weights n d)[i]? = some (Z * d ^ (n - 1 - i))) := by
  have hS := rawWeights_sum_pos n d hn hd0
  set S := ((List.range n).map (fun i => d ^ (n - 1 - i))).sum with hSdef
  refine ⟨?_, ?_, ?_⟩
  · rw [calculate_time_weights_eq, ← hSdef, list_sum_map_div (List.range n) (fun i => d ^ (n - 1 - i)) S, ← hSdef, div_self (ne_of_gt hS)]
  · intro i j hij hjn wi wj hwi hwj
    rw [calculate_time_weights_eq, ← hSdef, rangeMap_getElem? _ (by omega)] at hwi
    rw [calculate_time_weights_eq, ← hSdef, rangeMap_getElem? _ hjn] at hwj
    cases Option.some.inj hwi
    cases Option.some.inj hwj
    rw [div_lt_div_iff_of_pos_right hS]
    exact pow_lt_pow_right_of_lt_one₀ hd0 hd1 (by omega)
  · refine ⟨S⁻¹, inv_pos.mpr hS, fun i hi => ?_⟩
    rw [calculate_time_weights_eq, ← hSdef, rangeMap_getElem? _ hi]
    rw [div_eq_mul_inv, mul_comm]

/-- C5 witness: the amended theorem applied at n = 3, d = 92/100. -/
theorem C5_weights_witness :
    (calculate_time_weights 3 (92 / 100)).sum = 1 ∧
    (∀ i j : ℕ, i < j → j < 3 → ∀ wi wj : ℚ,
      (calculate_time_weights 3 (92 / 100))[i]? = some wi →
      (calculate_time_weights 3 (92 / 100))[j]? = some wj → wi < wj) ∧
    (∃ Z : ℚ, 0 < Z ∧ ∀ i : ℕ, i < 3 →
      (calculate_time_weights 3 (92 / 100))[i]? = some (Z * (92 / 100) ^ (3 - 1 - i))) :=
  C5_weights_thm 3 (92 / 100) (by norm_num) (by norm_num) (by norm_num)

/-! ### Claim C7: trend slope and R² on exactly linear series -/

/-- Length of the linear series. -/
theorem linList_length (a b : ℚ) (n : ℕ) : (linList a b n).length = n := by
  unfold linList
  rw [List.length_map, List.length_range]

/-- Closed form of the index sum. -/
theorem idxSum_closed (n : ℕ) : idxSum n = n * (n - 1) / 2 := by
  induction n with
  | zero => simp [idxSum]
  | succ n ih =>
      have h : idxSum (n + 1) = idxSum n + n := by
        simp [idxSum, List.range_succ]
      rw [h, ih]
      push_cast
      ring

/-- Closed form of the index square sum. -/
theorem idxSqSum_closed (n : ℕ) : idxSqSum n = n * (n - 1) * (2 * n - 1) / 6 := by
  induction n with
  | zero => simp [idxSqSum]
  | succ n ih =>
      have h : idxSqSum (n + 1) = idxSqSum n + n ^ 2 := by
        simp [idxSqSum, List.range_succ]
      rw [h, ih]
      push_cast
      ring

/-- Sum of the linear series. -/
theorem linList_sum (a b : ℚ) (n : ℕ) : (linList a b n).sum = n * a + b * idxSum n := by
  induction n with
  | zero => simp [linList, idxSum]
  | succ n ih =>
      have h1 : linList a b (n + 1) = linList a b n ++ [a + b * n] := by
        simp [linList, List.range_succ]
      have h2 : idxSum (n + 1) = idxSum n + n := by
        simp [idxSum, List.range_succ]
      rw [h1, List.sum_append, ih, h2]
      simp only [List.sum_cons, List.sum_nil]
      push_cast
      ring

/-- Index-weighted sum of the linear series. -/
theorem xySum_linList (a b : ℚ) (n : ℕ) :
    xySum (linList a b n) = a * idxSum n + b * idxSqSum n := by
  induction n with
  | zero => simp [xySum, linList, idxSum, idxSqSum]
  | succ n ih =>
      have hlen : (List.range n).length = (linList a b n).length := by
        simp [linList_length]
      have h1 : xySum (linList a b (n + 1)) = xySum (linList a b n) + n * (a + b * n) := by
        unfold xySum
        rw [linList_length, linList_length]
        have hr : List.range (n + 1) = List.range n ++ [n] := List.range_succ n
        have hl : linList a b (n + 1) = linList a b n ++ [a + b * n] := by
          simp [linList, List.range_succ]
        rw [hr, hl, List.zipWith_append _ _ _ _ _ hlen, List.sum_append]
        simp [List.sum_cons]
      have h2 : idxSum (n + 1) = idxSum n + n := by
        simp [idxSum, List.range_succ]
      have h3 : idxSqSum (n + 1) = idxSqSum n + n ^ 2 := by
        simp [idxSqSum, List.range_succ]
      rw [h1, ih, h2, h3]
      ring

/-- The least-squares denominator n·Σi² − (Σi)² is positive for n ≥ 2. -/
theorem lsq_den_pos (n : ℕ) (hn : 2 ≤ n) :
    0 < (n : ℚ) * idxSqSum n - idxSum n ^ 2 := by
  rw [idxSum_closed, idxSqSum_closed]
  have h2 : (2 : ℚ) ≤ (n : ℚ) := by exact_mod_cast hn
  rw [show (n : ℚ) * ((n : ℚ) * ((n : ℚ) - 1) * (2 * (n : ℚ) - 1) / 6) -
        ((n : ℚ) * ((n : ℚ) - 1) / 2) ^ 2 =
        (n : ℚ) ^ 2 * ((n : ℚ) ^ 2 - 1) / 12 by ring]
  apply div_pos
  · apply mul_pos
    · nlinarith
    · nlinarith
  · norm_num

/-- The fitted slope on an exactly linear series is exactly b. -/
theorem polyfitSlope_linList (a b : ℚ) (n : ℕ) (hn : 2 ≤ n) :
    polyfitSlope (linList a b n) = b := by
  have hden := lsq_den_pos n hn
  simp only [polyfitSlope]
  rw [linList_length, xySum_linList, linList_sum]
  rw [show (n : ℚ) * (a * idxSum n + b * idxSqSum n) -
        idxSum n * ((n : ℚ) * a + b * idxSum n) =
        b * ((n : ℚ) * idxSqSum n - idxSum n ^ 2) by ring]
  rw [mul_div_assoc, div_self (ne_of_gt hden), mul_one]

/-- The fitted intercept on an exactly linear series is exactly a. -/
theorem polyfitIntercept_linList (a b : ℚ) (n : ℕ) (hn : 2 ≤ n) :
    polyfitIntercept (linList a b n) = a := by
  have hn0 : (n : ℚ) ≠ 0 := by
    have : (2 : ℚ) ≤ (n : ℚ) := by exact_mod_cast hn
    linarith
  unfold polyfitIntercept
  rw [polyfitSlope_linList a b n hn, linList_length, linList_sum]
  field_simp

/-- The residual sum of squares of the exact fit on a linear series is 0. -/
theorem ssres_linList (a b : ℚ) (n : ℕ) :
    (List.zipWith (fun (i : ℕ) (y : ℚ) => (y - (b * (i : ℚ) + a)) ^ 2)
      (List.range n) (linList a b n)).sum = 0 := by
  induction n with
  | zero => simp [linList]
  | succ n ih =>
      have hlen : (List.range n).length = (linList a b n).length := by
        simp [linList_length]
      have hl : linList a b (n + 1) = linList a b n ++ [a + b * n] := by
        simp [linList, List.range_succ]
      rw [List.range_succ, hl, List.zipWith_append _ _ _ _ _ hlen, List.sum_append, ih]
      simp [List.sum_cons]
      ring

/-- Squared deviations of a linear series from any constant. -/
theorem sq_dev_sum_linList (a b c : ℚ) (n : ℕ) :
    ((linList a b n).map (fun y => (y - c) ^ 2)).sum =
      n * (a - c) ^ 2 + 2 * (a - c) * b * idxSum n + b ^ 2 * idxSqSum n := by
  induction n with
  | zero => simp [linList, idxSum, idxSqSum]
  | succ n ih =>
      have hl : linList a b (n + 1) = linList a b n ++ [a + b * n] := by
        simp [linList, List.range_succ]
      have h2 : idxSum (n + 1) = idxSum n + n := by
        simp [idxSum, List.range_succ]
      have h3 : idxSqSum (n + 1) = idxSqSum n + n ^ 2 := by
        simp [idxSqSum, List.range_succ]
      rw [hl, List.map_append, List.sum_append, ih, h2, h3]
      simp only [List.map_cons, List.map_nil, List.sum_cons, List.sum_nil]
      push_cast
      ring

/-- The total sum of squares of a linear series. -/
theorem sstot_linList (a b : ℚ) (n : ℕ) (hn : 2 ≤ n) :
    ((linList a b n).map (fun y => (y - listMean (linList a b n)) ^ 2)).sum =
      b ^ 2 * ((n : ℚ) * idxSqSum n - idxSum n ^ 2) / n := by
  have hn0 : (n : ℚ) ≠ 0 := by
    have : (2 : ℚ) ≤ (n : ℚ) := by exact_mod_cast hn
    linarith
  rw [sq_dev_sum_linList]
  unfold listMean
  rw [linList_sum, linList_length]
  field_simp
  ring

/-- R² of an exactly linear series: 1 unless the slope is 0 (in which case
the total sum of squares is 0 and the divide-by-zero convention yields 0). -/
theorem r_squared_linList (a b : ℚ) (n : ℕ) (hn : 2 ≤ n) :
    calculate_r_squared (linList a b n) = if b = 0 then 0 else 1 := by
  have hden := lsq_den_pos n hn
  have hn0 : (n : ℚ) ≠ 0 := by
    have : (2 : ℚ) ≤ (n : ℚ) := by exact_mod_cast hn
    linarith
  simp only [calculate_r_squared]
  rw [linList_length, if_neg (by omega)]
  rw [polyfitSlope_linList a b n hn, polyfitIntercept_linList a b n hn,
    ssres_linList a b n, sstot_linList a b n hn]
  by_cases hb : b = 0
  · rw [if_pos hb, hb]
    norm_num
  · rw [if_neg hb]
    have hne : b ^ 2 * ((n : ℚ) * idxSqSum n - idxSum n ^ 2) / n ≠ 0 :=
      div_ne_zero (mul_ne_zero (pow_ne_zero _ hb) (ne_of_gt hden)) hn0
    rw [if_pos hne, zero_div, sub_zero]

/-- C7 (counterexample): the constant series [5, 5] is exactly linear
(a = 5, b = 0) with length ≥ 2, yet `_calculate_r_squared` returns 0, not
1.0 — the claim as stated fails for slope-0 linear series. -/
theorem C7_counterexample :
    linList 5 0 2 = [5, 5] ∧ calculate_r_squared (linList 5 0 2) = 0 ∧ (0 : ℚ) ≠ 1 := by
  refine ⟨?_, ?_, by norm_num⟩
  · norm_num [linList, List.range_succ]
  · rw [r_squared_linList 5 0 2 (le_refl 2), if_pos rfl]

/-- C7 (amended): for every exactly linear series y = a + b·i of length
n ≥ 2, the fitted slope is exactly b; R² is 1.0 provided b ≠ 0, while for
b = 0 the total sum of squares is 0 and R² is 0 by the divide-by-zero
convention; and in general a zero total sum of squares yields R² = 0. -/
theorem C7_trend_thm (a b : ℚ) (n : ℕ) (hn : 2 ≤ n) :
    polyfitSlope (linList a b n) = b ∧
    (b ≠ 0 → calculate_r_squared (linList a b n) = 1) ∧
    (b = 0 → calculate_r_squared (linList a b n) = 0) ∧
    (∀ ys : List ℚ, ((ys.map (fun y => (y - listMean ys) ^ 2)).sum = 0) →
      calculate_r_squared ys = 0) := by
  refine ⟨polyfitSlope_linList a b n hn, ?_, ?_, ?_⟩
  · intro hb
    rw [r_squared_linList a b n hn, if_neg hb]
  · intro hb
    rw [r_squared_linList a b n hn, if_pos hb]
  · intro ys hys
    simp only [calculate_r_squared]
    by_cases hl : ys.length < 2
    · rw [if_pos hl]
    · rw [if_neg hl, hys]
      simp

/-- C7 witness: the amended theorem applied to y = 3 + 2·i of length 4. -/
theorem C7_trend_witness :
    polyfitSlope (linList 3 2 4) = 2 ∧
    ((2 : ℚ) ≠ 0 → calculate_r_squared (linList 3 2 4) = 1) ∧
    ((2 : ℚ) = 0 → calculate_r_squared (linList 3 2 4) = 0) ∧
    (∀ ys : List ℚ, ((ys.map (fun y => (y - listMean ys) ^ 2)).sum = 0) →
      calculate_r_squared ys = 0) :=
  C7_trend_thm 3 2 4 (by norm_num)

/-! ### Claim C8: rolling-statistic window semantics -/

/-- Each non-std aggregator is defined on every non-empty window. -/
theorem rollKindAgg_isSome_of_ne_std (kind : RollKind) (hk : kind ≠ .std)
    (l : List ℚ) (hl : l ≠ []) : ∃ v : ℚ, rollKindAgg kind l = some v := by
  cases kind with
  | std => exact absurd rfl hk
  | mean =>
      refine ⟨listMean l, ?_⟩
      simp [rollKindAgg, meanW, List.isEmpty_iff, hl]
  | median =>
      simp only [rollKindAgg, medianW, listMedian, List.isEmpty_iff, if_neg hl]
      by_cases hodd : l.length % 2 = 1
      · exact ⟨_, by rw [if_pos hodd]⟩
      · exact ⟨_, by rw [if_neg hodd]⟩
  | min =>
      rcases l with _ | ⟨x, t⟩
      · exact absurd rfl hl
      · exact ⟨t.foldl pyMin x, rfl⟩
  | max =>
      rcases l with _ | ⟨x, t⟩
      · exact absurd rfl hl
      · exact ⟨t.foldl pyMax x, rfl⟩
  | rank_pct =>
      simp only [rollKindAgg, rankW, rankPctLast, List.getLast?_eq_getLast l hl]
      exact ⟨_, rfl⟩

/-- The window of index `i` is non-empty whenever `w ≥ 1`. -/
theorem window_ne_nil (w : ℕ) (xs : List ℚ) (i : ℕ) (hi : i < xs.length) (hw : 1 ≤ w) :
    (xs.take (i + 1)).drop (i + 1 - w) ≠ [] := by
  intro h
  have := congrArg List.length h
  simp only [List.length_drop, List.length_take, List.length_nil] at this
  omega

/-- The window of index `i ≥ 1` has at least two elements when `w ≥ 2`. -/
theorem window_two_le (w : ℕ) (xs : List ℚ) (i : ℕ) (hi : i < xs.length) (hi1 : 1 ≤ i)
    (hw : 2 ≤ w) : 2 ≤ ((xs.take (i + 1)).drop (i + 1 - w)).length := by
  simp only [List.length_drop, List.length_take]
  omega

/-- C8 (counterexample): for kind std the claim fails — the rolling sample
standard deviation (ddof = 1) of a window with fewer than two elements is
NaN, so the std column of a one-row series, and every entry of a std
column with window 1, stay missing even after the backward/forward fill. -/
theorem C8_counterexample :
    fillCol (rollingStat .std 3 [5]) = [none] ∧
    fillCol (rollingStat .std 1 [5, 6]) = [none, none] := by
  constructor <;> rfl

/-- C8 (amended): for every series, window w ≥ 1 and rolling kind, the
rolling value at index i is the kind's aggregator applied to exactly the
elements at indices max(0, i-w+1)..i (shrinking window, min_periods = 1);
for the kinds mean, median, min, max and rank_pct no entry of the filled
feature column is missing; for kind std the same holds provided w ≥ 2 and
the series has at least two rows (sample std needs two observations;
the backward fill then removes the initial missing entry). -/
theorem C8_rolling_thm (kind : RollKind) (w : ℕ) (xs : List ℚ) (hw : 1 ≤ w) :
    (∀ i : ℕ, i < xs.length →
      (rollingStat kind w xs)[i]? =
        some (rollKindAgg kind ((xs.take (i + 1)).drop (i + 1 - w)))) ∧
    (kind ≠ .std → ∀ i : ℕ, i < xs.length → ∃ v : ℚ,
      (fillCol (rollingStat kind w xs))[i]? = some (some v)) ∧
    (kind = .std → 2 ≤ w → 2 ≤ xs.length → ∀ i : ℕ, i < xs.length → ∃ v : ℚ,
      (fillCol (rollingStat kind w xs))[i]? = some (some v)) := by
  refine ⟨fun i hi => rollingApply_getElem? _ w xs i hi, ?_, ?_⟩
  · intro hk i hi
    rcases rollKindAgg_isSome_of_ne_std kind hk _ (window_ne_nil w xs i hi hw) with ⟨v, hv⟩
    refine ⟨v, fillCol_defined ?_⟩
    unfold rollingStat
    rw [rollingApply_getElem? _ w xs i hi, hv]
  · rintro rfl hw2 hxs i hi
    have hstd : ∀ j : ℕ, 1 ≤ j → j < xs.length →
        (rollingStat .std w xs)[j]? = some (some (sampleVar ((xs.take (j + 1)).drop (j + 1 - w)))) := by
      intro j hj1 hj
      unfold rollingStat
      rw [rollingApply_getElem? _ w xs j hj]
      have h2 := window_two_le w xs j hj hj1 hw2
      simp only [rollKindAgg, stdW]
      rw [if_neg (by omega)]
    rcases Nat.eq_zero_or_pos i with hi0 | hi1
    · subst hi0
      have h1 : (rollingStat .std w xs)[1]? =
          some (some (sampleVar ((xs.take 2).drop (2 - w)))) := hstd 1 (le_refl 1) (by omega)
      have hlen : (0 : ℕ) < (rollingStat .std w xs).length := by
        unfold rollingStat
        rw [rollingApply_length]; omega
      rcases bfillCol_isSome hlen (by omega) h1 with ⟨u, hu⟩
      exact ⟨u, ffillCol_defined hu⟩
    · rcases hstd i hi1 hi with h
      exact ⟨_, fillCol_defined h⟩

/-- C8 witness: the amended theorem at kind std, window 2, series [5, 6]. -/
theorem C8_rolling_witness :
    (∀ i : ℕ, i < ([5, 6] : List ℚ).length →
      (rollingStat .std 2 [5, 6])[i]? =
        some (rollKindAgg .std ((([5, 6] : List ℚ).take (i + 1)).drop (i + 1 - 2)))) ∧
    (RollKind.std ≠ .std → ∀ i : ℕ, i < ([5, 6] : List ℚ).length → ∃ v : ℚ,
      (fillCol (rollingStat .std 2 [5, 6]))[i]? = some (some v)) ∧
    (RollKind.std = .std → 2 ≤ 2 → 2 ≤ ([5, 6] : List ℚ).length → ∀ i : ℕ,
      i < ([5, 6] : List ℚ).length → ∃ v : ℚ,
      (fillCol (rollingStat .std 2 [5, 6]))[i]? = some (some v)) :=
  C8_rolling_thm .std 2 [5, 6] (by norm_num)

/-! ### Claim C3: feature causality and the backward-fill leak -/

/-- Every raw (pre-fill) feature column is causal: appending further rows
below the table leaves all entries at existing row indices unchanged. -/
theorem rawColumn_append_getElem? (O : TrigOracle) (d e : ObsData)
    (hd : d.aligned) (id : FeatureId) (i : ℕ) (hi : i < d.numRows) :
    (rawColumn O (d.append e) id)[i]? = (rawColumn O d id)[i]? := by
  obtain ⟨hdt, hdh⟩ := hd
  have hit : i < d.temperature.length := by rw [hdt]; exact hi
  have hih : i < d.humidity.length := by rw [hdh]; exact hi
  cases id with
  | day_of_year => exact mapCol_append_getElem? _ d.dates e.dates i hi
  | month => exact mapCol_append_getElem? _ d.dates e.dates i hi
  | day => exact mapCol_append_getElem? _ d.dates e.dates i hi
  | day_of_week => exact mapCol_append_getElem? _ d.dates e.dates i hi
  | quarter => exact mapCol_append_getElem? _ d.dates e.dates i hi
  | season_sin => exact mapCol_append_getElem? _ d.dates e.dates i hi
  | season_cos => exact mapCol_append_getElem? _ d.dates e.dates i hi
  | month_sin => exact mapCol_append_getElem? _ d.dates e.dates i hi
  | month_cos => exact mapCol_append_getElem? _ d.dates e.dates i hi
  | week_sin => exact mapCol_append_getElem? _ d.dates e.dates i hi
  | week_cos => exact mapCol_append_getElem? _ d.dates e.dates i hi
  | temp_lag k => exact shiftCol_append_getElem? k d.temperature e.temperature i hit
  | humidity_lag k => exact shiftCol_append_getElem? k d.humidity e.humidity i hih
  | temp_ma w => exact rollingApply_append_getElem? meanW w d.temperature e.temperature i hit
  | humidity_ma w => exact rollingApply_append_getElem? meanW w d.humidity e.humidity i hih
  | temp_median w => exact rollingApply_append_getElem? medianW w d.temperature e.temperature i hit
  | humidity_median w => exact rollingApply_append_getElem? medianW w d.humidity e.humidity i hih
  | temp_std w => exact rollingApply_append_getElem? stdW w d.temperature e.temperature i hit
  | humidity_std w => exact rollingApply_append_getElem? stdW w d.humidity e.humidity i hih
  | temp_range w =>
      show (zipWithOpt (fun a b => a - b)
          (rollingApply maxW w (d.temperature ++ e.temperature))
          (rollingApply minW w (d.temperature ++ e.temperature)))[i]? =
        (zipWithOpt (fun a b => a - b)
          (rollingApply maxW w d.temperature) (rollingApply minW w d.temperature))[i]?
      unfold zipWithOpt
      rw [zipWith_getElem?, zipWith_getElem?,
        rollingApply_append_getElem? maxW w d.temperature e.temperature i hit,
        rollingApply_append_getElem? minW w d.temperature e.temperature i hit]
  | humidity_range w =>
      show (zipWithOpt (fun a b => a - b)
          (rollingApply maxW w (d.humidity ++ e.humidity))
          (rollingApply minW w (d.humidity ++ e.humidity)))[i]? =
        (zipWithOpt (fun a b => a - b)
          (rollingApply maxW w d.humidity) (rollingApply minW w d.humidity))[i]?
      unfold zipWithOpt
      rw [zipWith_getElem?, zipWith_getElem?,
        rollingApply_append_getElem? maxW w d.humidity e.humidity i hih,
        rollingApply_append_getElem? minW w d.humidity e.humidity i hih]
  | temp_change k => exact diffCol_append_getElem? k d.temperature e.temperature i hit
  | humidity_change k => exact diffCol_append_getElem? k d.humidity e.humidity i hih
  | temp_rank w => exact rollingApply_append_getElem? rankW w d.temperature e.temperature i hit
  | humidity_rank w => exact rollingApply_append_getElem? rankW w d.humidity e.humidity i hih
  | temp_humidity_interaction =>
      show (List.zipWith (fun t h => some (t * h / 100))
          (d.temperature ++ e.temperature) (d.humidity ++ e.humidity))[i]? =
        (List.zipWith (fun t h => some (t * h / 100)) d.temperature d.humidity)[i]?
      rw [zipWith_getElem?, zipWith_getElem?, List.getElem?_append_left hit,
        List.getElem?_append_left hih]
  | temp_humidity_ratio =>
      show (List.zipWith (fun t h => some (t / (h + 1)))
          (d.temperature ++ e.temperature) (d.humidity ++ e.humidity))[i]? =
        (List.zipWith (fun t h => some (t / (h + 1))) d.temperature d.humidity)[i]?
      rw [zipWith_getElem?, zipWith_getElem?, List.getElem?_append_left hit,
        List.getElem?_append_left hih]
  | temp_trend w => exact rollingApply_append_getElem? trendW w d.temperature e.temperature i hit
  | humidity_trend w => exact rollingApply_append_getElem? trendW w d.humidity e.humidity i hih

/-- C3 (counterexample): the one-day change feature of a single-row series
is missing at date D (row 0) — and after appending the next day's row and
regenerating the table, `df.bfill()` back-fills row 0's feature from the
appended future row, so FeatureRow(D) changes from missing to 2.  Feature
generation is therefore not causal across regeneration. -/
theorem C3_counterexample :
    ((create_advanced_features ⟨fun _ => 0, fun _ => 1⟩ obsOne).col (.temp_change 1))[0]? =
      some none ∧
    ((create_advanced_features ⟨fun _ => 0, fun _ => 1⟩
        (obsOne.append ⟨[19724], [22], [55]⟩)).col (.temp_change 1))[0]? =
      some (some 2) ∧
    (none : Option ℚ) ≠ some 2 := by
  refine ⟨rfl, ?_, by simp⟩
  show (fillCol (diffCol 1 [20, 22]))[0]? = some (some 2)
  norm_num [fillCol, bfillCol, ffillCol, diffCol, List.range_succ]

/-- C3 (amended): the pre-fill feature columns are strictly causal —
appending rows after date D leaves every feature entry at D unchanged —
and causality survives the final `bfill/ffill` for every entry that is
non-missing before the fill.  (The counterexample shows it fails for
entries that are missing before the fill: the backward fill pulls values
from appended future rows.) -/
theorem C3_causality_thm (O : TrigOracle) (d e : ObsData) (hd : d.aligned)
    (id : FeatureId) (i : ℕ) (hi : i < d.numRows) :
    ((rawColumn O (d.append e) id)[i]? = (rawColumn O d id)[i]?) ∧
    (∀ v : ℚ, (rawColumn O d id)[i]? = some (some v) →
      ((create_advanced_features O d).col id)[i]? = some (some v) ∧
      ((create_advanced_features O (d.append e)).col id)[i]? = some (some v)) := by
  have hstable := rawColumn_append_getElem? O d e hd id i hi
  refine ⟨hstable, fun v hv => ⟨fillCol_defined hv, fillCol_defined ?_⟩⟩
  rw [hstable]
  exact hv

/-- C3 witness: the amended theorem at the two-row table, lag-1 feature,
row 0, appending a one-row table. -/
theorem C3_causality_witness :
    ((rawColumn ⟨fun _ => 0, fun _ => 1⟩ (obsTwo.append obsOne) (.temp_lag 1))[0]? =
      (rawColumn ⟨fun _ => 0, fun _ => 1⟩ obsTwo (.temp_lag 1))[0]?) ∧
    (∀ v : ℚ, (rawColumn ⟨fun _ => 0, fun _ => 1⟩ obsTwo (.temp_lag 1))[0]? = some (some v) →
      ((create_advanced_features ⟨fun _ => 0, fun _ => 1⟩ obsTwo).col (.temp_lag 1))[0]? =
        some (some v) ∧
      ((create_advanced_features ⟨fun _ => 0, fun _ => 1⟩ (obsTwo.append obsOne)).col
        (.temp_lag 1))[0]? = some (some v)) :=
  C3_causality_thm ⟨fun _ => 0, fun _ => 1⟩ obsTwo obsOne ⟨rfl, rfl⟩ (.temp_lag 1) 0
    (by decide)

/-! ### Claim C6: z-score outlier detection -/

/-- Sum of a constant list. -/
theorem sum_of_const (l : List ℚ) (c : ℚ) (h : ∀ x ∈ l, x = c) :
    l.sum = c * l.length := by
  induction l with
  | nil => simp
  | cons x t ih =>
      rw [List.sum_cons, h x (List.mem_cons_self x t),
        ih (fun y hy => h y (List.mem_cons_of_mem x hy))]
      simp only [List.length_cons]
      push_cast
      ring

/-- Mean of a non-empty constant list. -/
theorem listMean_const (l : List ℚ) (c : ℚ) (h : ∀ x ∈ l, x = c) (hne : l ≠ []) :
    listMean l = c := by
  have hl : (l.length : ℚ) ≠ 0 := by
    simp only [ne_eq, Nat.cast_eq_zero, List.length_eq_zero]
    exact hne
  unfold listMean
  rw [sum_of_const l c h, mul_div_assoc, div_self hl, mul_one]

/-- The sample variance of a constant list is 0. -/
theorem sampleVar_const (l : List ℚ) (c : ℚ) (h : ∀ x ∈ l, x = c) :
    sampleVar l = 0 := by
  rcases eq_or_ne l [] with rfl | hne
  · simp [sampleVar]
  · unfold sampleVar
    have hz : l.map (fun x => (x - listMean l) ^ 2) = l.map (fun _ => 0) := by
      apply List.map_congr_left
      intro x hx
      rw [h x hx, listMean_const l c h hne]
      ring
    rw [hz]
    simp

/-- The z-score test in its real-number form: for variance v > 0 and
std = √v, the boolean `zScoreExceeds t v m x` holds exactly when
|x - m| / std exceeds t. -/
theorem zScoreExceeds_iff (t v m x : ℚ) (hv : 0 < v) :
    zScoreExceeds t v m x = true ↔
      (t : ℝ) < |(x : ℝ) - (m : ℝ)| / Real.sqrt (v : ℝ) := by
  have hv' : (0 : ℝ) < (v : ℝ) := by exact_mod_cast hv
  have hsq : (0 : ℝ) < Real.sqrt (v : ℝ) := Real.sqrt_pos.mpr hv'
  have hs2 : Real.sqrt (v : ℝ) ^ 2 = (v : ℝ) := Real.sq_sqrt hv'.le
  rw [lt_div_iff₀ hsq]
  unfold zScoreExceeds
  rw [Bool.or_eq_true, decide_eq_true_iff, decide_eq_true_iff]
  constructor
  · rintro (ht | hlt)
    · have ht' : (t : ℝ) < 0 := by exact_mod_cast ht
      calc (t : ℝ) * Real.sqrt (v : ℝ) < 0 := mul_neg_of_neg_of_pos ht' hsq
        _ ≤ |(x : ℝ) - (m : ℝ)| := abs_nonneg _
    · have hlt' : (t : ℝ) ^ 2 * (v : ℝ) < ((x : ℝ) - (m : ℝ)) ^ 2 := by
        exact_mod_cast hlt
      by_cases ht : (t : ℝ) < 0
      · calc (t : ℝ) * Real.sqrt (v : ℝ) < 0 := mul_neg_of_neg_of_pos ht hsq
          _ ≤ |(x : ℝ) - (m : ℝ)| := abs_nonneg _
      · push_neg at ht
        have hB := abs_nonneg ((x : ℝ) - (m : ℝ))
        have hB2 := sq_abs ((x : ℝ) - (m : ℝ))
        nlinarith [mul_nonneg ht hsq.le,
          sq_nonneg ((t : ℝ) * Real.sqrt (v : ℝ) + |(x : ℝ) - (m : ℝ)|)]
  · intro h
    by_cases ht : t < 0
    · exact Or.inl ht
    · push_neg at ht
      right
      have ht' : (0 : ℝ) ≤ (t : ℝ) := by exact_mod_cast ht
      have ha : (0 : ℝ) ≤ (t : ℝ) * Real.sqrt (v : ℝ) := mul_nonneg ht' hsq.le
      have hsq2 := pow_lt_pow_left₀ h ha (two_ne_zero)
      have : (t : ℝ) ^ 2 * (v : ℝ) < ((x : ℝ) - (m : ℝ)) ^ 2 := by
        have hB2 := sq_abs ((x : ℝ) - (m : ℝ))
        nlinarith
      exact_mod_cast this

/-- On constant (clean) data the common detector body returns no outliers:
either fewer than two clean values, or variance 0 below the noise floor. -/
theorem detectOutliersCore_const (s : Col) (t c : ℚ)
    (h : ∀ x ∈ s.filterMap id, x = c) : detectOutliersCore s t = [] := by
  simp only [detectOutliersCore]
  by_cases hlen : (s.filterMap id).length < 2
  · rw [if_pos hlen]
  · rw [if_neg hlen, if_pos (by rw [sampleVar_const _ c h]; norm_num)]

/-- C6: (a) every constant series yields an empty outlier set for every
threshold, in both `utils.detect_outliers` and
`DataAnalyzer._detect_series_outliers`; (b) the two detectors agree on
every input; (c) on non-degenerate input (at least two clean values,
variance at or above the 1e-20 noise floor, i.e. std ≥ 1e-10) the flagged
indices are exactly the indices of non-missing values whose
|x - mean| / std exceeds the threshold, with mean and std computed over
the non-missing values only. -/
theorem C6_outliers_thm :
    (∀ (s : Col) (t c : ℚ), (∀ x ∈ s.filterMap id, x = c) →
      detect_outliers s t = [] ∧ detect_series_outliers s t = []) ∧
    (∀ (s : Col) (t : ℚ), detect_outliers s t = detect_series_outliers s t) ∧
    (∀ (s : Col) (t : ℚ), 2 ≤ (s.filterMap id).length →
      ¬ sampleVar (s.filterMap id) < 1 / 10 ^ 20 →
      ∀ i : ℕ, (i ∈ detect_series_outliers s t ↔
        ∃ x : ℚ, s[i]? = some (some x) ∧
          (t : ℝ) < |(x : ℝ) - (listMean (s.filterMap id) : ℝ)| /
            Real.sqrt (sampleVar (s.filterMap id) : ℝ))) := by
  refine ⟨?_, ?_, ?_⟩
  · intro s t c h
    constructor
    · unfold detect_outliers
      by_cases hs : s.length < 2
      · rw [if_pos hs]
      · rw [if_neg hs]
        exact detectOutliersCore_const s t c h
    · exact detectOutliersCore_const s t c h
  · intro s t
    unfold detect_outliers detect_series_outliers
    by_cases hs : s.length < 2
    · rw [if_pos hs]
      have hclean : (s.filterMap id).length < 2 :=
        lt_of_le_of_lt (List.length_filterMap_le id s) hs
      simp only [detectOutliersCore]
      rw [if_pos hclean]
    · rw [if_neg hs]
  · intro s t hclean hvar i
    have hvpos : 0 < sampleVar (s.filterMap id) :=
      lt_of_lt_of_le (by norm_num) (not_lt.mp hvar)
    unfold detect_series_outliers
    simp only [detectOutliersCore]
    rw [if_neg (by omega), if_neg hvar, List.mem_filterMap]
    constructor
    · rintro ⟨⟨j, o⟩, hmem, hstep⟩
      cases o with
      | none => exact Option.noConfusion hstep
      | some x =>
          simp only at hstep
          split at hstep
          · next hz =>
              cases hstep
              exact ⟨x, List.mk_mem_enum_iff_getElem?.mp hmem,
                (zScoreExceeds_iff t _ _ x hvpos).mp hz⟩
          · exact Option.noConfusion hstep
    · rintro ⟨x, hsx, hineq⟩
      refine ⟨(i, some x), List.mk_mem_enum_iff_getElem?.mpr hsx, ?_⟩
      simp only
      rw [if_pos ((zScoreExceeds_iff t _ _ x hvpos).mpr hineq)]

/-- C6 witness: the theorem applied to the constant series [5, 5] (empty
outlier sets) and to the series [0, 8] with threshold 1 (characterization
with mean 4 and variance 32). -/
theorem C6_outliers_witness :
    (detect_outliers [some 5, some 5] 2 = [] ∧
      detect_series_outliers [some 5, some 5] 2 = []) ∧
    (detect_outliers [some 0, some 8] 1 = detect_series_outliers [some 0, some 8] 1) ∧
    (∀ i : ℕ, (i ∈ detect_series_outliers [some 0, some 8] 1 ↔
      ∃ x : ℚ, ([some 0, some 8] : Col)[i]? = some (some x) ∧
        ((1 : ℚ) : ℝ) < |(x : ℝ) - (listMean (([some 0, some 8] : Col).filterMap id) : ℝ)| /
          Real.sqrt (sampleVar (([some 0, some 8] : Col).filterMap id) : ℝ))) := by
  refine ⟨?_, C6_outliers_thm.2.1 [some 0, some 8] 1, ?_⟩
  · refine C6_outliers_thm.1 [some 5, some 5] 2 5 ?_
    intro x hx
    rw [show ([some 5, some 5] : Col).filterMap id = [5, 5] from rfl] at hx
    simp only [List.mem_cons, List.not_mem_nil, or_false, or_self] at hx
    exact hx
  · refine C6_outliers_thm.2.2 [some 0, some 8] 1 ?_ ?_
    · simp [List.filterMap_cons]
    · simp only [List.filterMap_cons, id]
      norm_num [sampleVar, listMean]

/-! ### The prediction pipeline: structural lemmas -/

/-- `Rat.floor` agrees with the floor of the ordered field ℚ. -/
theorem ratFloor_eq (q : ℚ) : q.floor = ⌊q⌋ := by
  rw [Rat.floor_def', ← Rat.floor_def]

/-- Rounding an integer changes nothing. -/
theorem roundHalfEven_int (z : ℤ) : roundHalfEven (z : ℚ) = z := by
  unfold roundHalfEven
  rw [ratFloor_eq, Int.floor_intCast]
  norm_num

/-- The fitted feature width: `feature_cols` has 71 entries. -/
theorem featureCols_length : featureCols.length = 71 := by decide

/-- The prediction feature vector has 71 entries for histories of at
least 14 rows and 85 entries otherwise (the data-poor fallback emits 28
average placeholders where training used 14 lag features). -/
theorem create_prediction_features_length (O : TrigOracle) (T : FeatTable) (pd : ℤ) :
    (create_prediction_features O T pd).length =
      if 14 ≤ T.base.temperature.length then 71 else 85 := by
  by_cases h : 14 ≤ T.base.temperature.length
  · rw [if_pos h]
    simp only [create_prediction_features, if_pos h]
    simp [List.length_append]
  · rw [if_neg h]
    simp only [create_prediction_features, if_neg h]
    simp [List.length_append]

/-- Width of the loop's feature vector, as a function of the history. -/
theorem predFeaturesAt_length (O : Oracles) (hist : ObsData) (i : ℕ) :
    (predFeaturesAt O hist i).length =
      if 14 ≤ hist.temperature.length then 71 else 85 :=
  create_prediction_features_length O.toTrigOracle (featTableOf O hist) _

/-- A loop iteration whose feature vector has the fitted width emits
exactly `predRowAt`. -/
theorem predictStep_ok (O : Oracles) (hist : ObsData) (i : ℕ)
    (hw : (predFeaturesAt O hist i).length = featureCols.length) :
    predictStep O hist i = .ok (predFeaturesAt O hist i, predRowAt O hist i) := by
  unfold predictStep
  rw [if_pos hw]
  rfl

/-- A successful loop iteration always emits `predRowAt`. -/
theorem predictStep_ok_inv (O : Oracles) (hist : ObsData) (i : ℕ)
    (p : List (Option ℚ) × PredRow) (h : predictStep O hist i = .ok p) :
    p = (predFeaturesAt O hist i, predRowAt O hist i) := by
  simp only [predictStep] at h
  split at h
  · cases h
    rfl
  · exact Except.noConfusion h

/-- For a non-empty history of at least 14 rows, `predict_weather`
succeeds and returns one `predRowAt` row per day offset 1..n. -/
theorem predict_weather_ok (O : Oracles) (hist : ObsData) (n : ℕ)
    (hne : hist.dates ≠ []) (h14 : 14 ≤ hist.temperature.length) :
    predictWithTrace O hist n =
      .ok ((List.range n).map (fun j => (predFeaturesAt O hist (j + 1), predRowAt O hist (j + 1)))) ∧
    predict_weather O hist n =
      .ok ((List.range n).map (fun j => predRowAt O hist (j + 1))) := by
  have hguard : hist.dates.isEmpty = false := by
    rcases hd : hist.dates with _ | ⟨x, xs⟩
    · exact absurd hd hne
    · rfl
  have htrace : predictWithTrace O hist n =
      .ok ((List.range n).map (fun j => (predFeaturesAt O hist (j + 1), predRowAt O hist (j + 1)))) := by
    unfold predictWithTrace
    rw [hguard]
    simp only [Bool.false_eq_true, if_false]
    exact loopM_ok_of _ _ (List.range n) (fun j _ =>
      predictStep_ok O hist (j + 1)
        (by rw [predFeaturesAt_length, featureCols_length, if_pos h14]))
  refine ⟨htrace, ?_⟩
  unfold predict_weather
  rw [htrace]
  simp [Except.map, List.map_map, Function.comp_def]

/-! ### Claim C2: behavior on empty input -/

/-- C2 (counterexample): on the empty series the analysis entry point
returns the empty dict (`none`) and the forecasting entry point returns an
empty DataFrame (`.ok []`) — both return empty results; no
`InsufficientDataError` (or any exception) is raised, and no such
exception class exists in the source. -/
theorem C2_counterexample :
    analyze_30day_data (constOracles 0 0).toMathOracle ⟨[], [], []⟩ = none ∧
    predict_weather (constOracles 0 0) ⟨[], [], []⟩ 5 = .ok [] := by
  exact ⟨rfl, rfl⟩

/-- C2 (amended): for every empty input series, `analyze_30day_data`
returns the empty dict and `predict_weather` displays an error message and
returns an empty DataFrame — neither raises an exception. -/
theorem C2_empty_input_thm (Om : MathOracle) (O : Oracles) (d : ObsData) (n : ℕ)
    (hd : d.dates = []) :
    analyze_30day_data Om d = none ∧ predict_weather O d n = .ok [] := by
  have hempty : d.dates.isEmpty = true := by
    rw [hd]
    rfl
  constructor
  · unfold analyze_30day_data
    rw [if_pos hempty]
  · unfold predict_weather predictWithTrace
    rw [if_pos hempty]
    rfl

/-- C2 witness: the amended theorem at the empty table. -/
theorem C2_empty_input_witness :
    analyze_30day_data (constOracles 0 0).toMathOracle ⟨[], [], []⟩ = none ∧
    predict_weather (constOracles 0 0) ⟨[], [], []⟩ 3 = .ok [] :=
  C2_empty_input_thm (constOracles 0 0).toMathOracle (constOracles 0 0) ⟨[], [], []⟩ 3 rfl

/-! ### Claim C4: short histories crash the prediction loop -/

/-- C4 (code bug): on a valid non-empty 1-row history the prediction
pipeline does not return forecast rows at all — the data-poor branch of
`_create_prediction_features` emits a feature vector of 85 entries (28
average placeholders instead of the 14 lag features), and the scaler
rejects it against the fitted width 71, raising an exception for every
history of 1..13 rows. -/
theorem C4_short_history_bug :
    predict_weather (constOracles 0 0) obsOne 1 =
      .error (.widthMismatch 85 71) := by
  have hw : (predFeaturesAt (constOracles 0 0) obsOne 1).length = 85 := by
    rw [predFeaturesAt_length]
    norm_num [obsOne]
  have hstep : predictStep (constOracles 0 0) obsOne 1 =
      .error (.widthMismatch 85 71) := by
    unfold predictStep
    rw [if_neg (by rw [hw, featureCols_length]; norm_num)]
    rw [hw, featureCols_length]
  unfold predict_weather predictWithTrace
  rw [show (obsOne.dates.isEmpty) = false from rfl]
  simp only [Bool.false_eq_true, if_false]
  rw [show List.range 1 = [0] from rfl]
  simp only [loopM, hstep]
  rfl

/-! ### Claim C10: shape of every emitted forecast row -/

/-- C10: every forecast row emitted by `predict_weather` carries a
temperature and humidity rounded to one decimal place, month and year
fields equal to the month and year of the row's date, and the forecast
flag set. -/
theorem C10_forecast_row_thm (O : Oracles) (hist : ObsData) (n : ℕ) (rows : List PredRow)
    (hok : predict_weather O hist n = .ok rows) :
    ∀ r ∈ rows,
      (∃ k : ℤ, r.temperature = (k : ℚ) / 10) ∧
      (∃ k : ℤ, r.humidity = (k : ℚ) / 10) ∧
      r.month = monthOf r.date ∧ r.year = yearOf r.date ∧ r.is_prediction = true := by
  unfold predict_weather at hok
  rcases htr : predictWithTrace O hist n with e | tr <;> rw [htr] at hok
  · exact Except.noConfusion hok
  · simp only [Except.map] at hok
    cases hok
    intro r hr
    rcases List.mem_map.mp hr with ⟨p, hp, rfl⟩
    unfold predictWithTrace at htr
    split at htr
    · cases htr
      exact absurd hp (List.not_mem_nil p)
    · rcases loopM_mem _ _ _ htr p hp with ⟨j, _, hstep⟩
      rw [predictStep_ok_inv O hist (j + 1) p hstep]
      exact ⟨⟨roundHalfEven _, rfl⟩, ⟨roundHalfEven _, rfl⟩, rfl, rfl, rfl⟩

/-- C10 witness: the theorem applied to a successful 1-day forecast over
the 14-row history. -/
theorem C10_forecast_row_witness :
    (∃ k : ℤ, (predRowAt (constOracles 12 55) obsFourteen 1).temperature = (k : ℚ) / 10) ∧
    (∃ k : ℤ, (predRowAt (constOracles 12 55) obsFourteen 1).humidity = (k : ℚ) / 10) ∧
    (predRowAt (constOracles 12 55) obsFourteen 1).month =
      monthOf (predRowAt (constOracles 12 55) obsFourteen 1).date ∧
    (predRowAt (constOracles 12 55) obsFourteen 1).year =
      yearOf (predRowAt (constOracles 12 55) obsFourteen 1).date ∧
    (predRowAt (constOracles 12 55) obsFourteen 1).is_prediction = true :=
  C10_forecast_row_thm (constOracles 12 55) obsFourteen 1
    ((List.range 1).map (fun j => predRowAt (constOracles 12 55) obsFourteen (j + 1)))
    (predict_weather_ok (constOracles 12 55) obsFourteen 1 (by decide) (by decide)).2
    (predRowAt (constOracles 12 55) obsFourteen 1)
    (by rw [show (List.range 1).map (fun j => predRowAt (constOracles 12 55) obsFourteen (j + 1)) =
          [predRowAt (constOracles 12 55) obsFourteen 1] from rfl]
        exact List.mem_singleton.mpr rfl)

/-! ### Claim C1: the prediction loop does not feed forecasts back -/

/-- Composition of `Except.map`. -/
theorem exceptMap_map {ε α β γ : Type} (x : Except ε α) (f : α → β) (g : β → γ) :
    (x.map f).map g = x.map (fun a => g (f a)) := by
  cases x <;> rfl

/-- Two loops whose iterations agree on first components (and on errors)
produce the same first-component trace. -/
theorem loopM_fst_congr {α γ δ₁ δ₂ ε : Type}
    (g₁ : α → Except ε (γ × δ₁)) (g₂ : α → Except ε (γ × δ₂)) :
    ∀ l : List α,
      (∀ a ∈ l, (∃ c r₁ r₂, g₁ a = .ok (c, r₁) ∧ g₂ a = .ok (c, r₂)) ∨
        (∃ e, g₁ a = .error e ∧ g₂ a = .error e)) →
      (loopM g₁ l).map (List.map Prod.fst) = (loopM g₂ l).map (List.map Prod.fst)
  | [], _ => rfl
  | a :: l, h => by
      have ihl := loopM_fst_congr g₁ g₂ l (fun b hb => h b (List.mem_cons_of_mem a hb))
      rcases h a (List.mem_cons_self a l) with ⟨c, r₁, r₂, h1, h2⟩ | ⟨e, h1, h2⟩
      · simp only [loopM, h1, h2, exceptMap_map]
        calc (loopM g₁ l).map (fun bs => List.map Prod.fst ((c, r₁) :: bs))
            = ((loopM g₁ l).map (List.map Prod.fst)).map (fun ys => c :: ys) := by
              rw [exceptMap_map]
              rfl
          _ = ((loopM g₂ l).map (List.map Prod.fst)).map (fun ys => c :: ys) := by rw [ihl]
          _ = (loopM g₂ l).map (fun bs => List.map Prod.fst ((c, r₂) :: bs)) := by
              rw [exceptMap_map]
              rfl
      · simp only [loopM, h1, h2]
        rfl

/-- The feature vectors of the loop depend only on the trig oracle (the
history's feature table and the target dates), never on the scaler or the
trained models. -/
theorem predFeaturesAt_trig_congr (O Oa : Oracles) (hTrig : O.toTrigOracle = Oa.toTrigOracle)
    (hist : ObsData) : predFeaturesAt O hist = predFeaturesAt Oa hist := by
  unfold predFeaturesAt featTableOf
  rw [hTrig]

/-- Replacing the trained models (however trained) changes none of the
feature vectors the loop feeds them: the trace of feature vectors is
identical for any two oracle bundles sharing the trigonometry. -/
theorem predict_features_model_independent (O Oa : Oracles)
    (hTrig : O.toTrigOracle = Oa.toTrigOracle) (hist : ObsData) (n : ℕ) :
    (predictWithTrace O hist n).map (List.map Prod.fst) =
      (predictWithTrace Oa hist n).map (List.map Prod.fst) := by
  have hf := predFeaturesAt_trig_congr O Oa hTrig hist
  unfold predictWithTrace
  by_cases hempty : hist.dates.isEmpty
  · rw [if_pos hempty, if_pos hempty]
  · rw [if_neg hempty, if_neg hempty]
    apply loopM_fst_congr
    intro j _
    by_cases hw : (predFeaturesAt O hist (j + 1)).length = featureCols.length
    · left
      exact ⟨predFeaturesAt O hist (j + 1), predRowAt O hist (j + 1), predRowAt Oa hist (j + 1),
        predictStep_ok O hist (j + 1) hw,
        by rw [predictStep_ok Oa hist (j + 1) (by rw [← hf]; exact hw), ← hf]⟩
    · right
      refine ⟨.widthMismatch (predFeaturesAt O hist (j + 1)).length featureCols.length, ?_, ?_⟩
      · unfold predictStep
        rw [if_neg hw]
      · unfold predictStep
        rw [← hf, if_neg hw]

/-- Clamped constant model outputs evaluate through the rounding. -/
theorem pyRound1_clamp_ten : pyRound1 (pyMax (-20) (pyMin 40 (10 : ℚ))) = 10 := by
  rw [show pyMin 40 (10 : ℚ) = 10 from by unfold pyMin; norm_num]
  rw [show pyMax (-20) (10 : ℚ) = 10 from by unfold pyMax; norm_num]
  unfold pyRound1
  rw [show (10 : ℚ) * 10 = ((100 : ℤ) : ℚ) by norm_num, roundHalfEven_int]
  norm_num

/-- As `pyRound1_clamp_ten`, for 20. -/
theorem pyRound1_clamp_twenty : pyRound1 (pyMax (-20) (pyMin 40 (20 : ℚ))) = 20 := by
  rw [show pyMin 40 (20 : ℚ) = 20 from by unfold pyMin; norm_num]
  rw [show pyMax (-20) (20 : ℚ) = 20 from by unfold pyMax; norm_num]
  unfold pyRound1
  rw [show (20 : ℚ) * 10 = ((200 : ℤ) : ℚ) by norm_num, roundHalfEven_int]
  norm_num

/-- C1 (counterexample): over a 14-row history and horizon 2, two model
oracles that predict constantly 10 °C respectively 20 °C produce different
forecast rows for day 1, yet the feature vectors used at every step —
including step 2 — are identical: the forecast at step 2 is not causally
downstream of the forecast at step 1, because the prediction loop never
appends forecast rows to the working history. -/
theorem C1_counterexample :
    (predictWithTrace (constOracles 10 0) obsFourteen 2).map (List.map Prod.fst) =
      (predictWithTrace (constOracles 20 0) obsFourteen 2).map (List.map Prod.fst) ∧
    (predict_weather (constOracles 10 0) obsFourteen 2).map (List.map PredRow.temperature) ≠
      (predict_weather (constOracles 20 0) obsFourteen 2).map (List.map PredRow.temperature) := by
  constructor
  · exact predict_features_model_independent (constOracles 10 0) (constOracles 20 0) rfl
      obsFourteen 2
  · have e1 : (predict_weather (constOracles 10 0) obsFourteen 2).map
        (List.map PredRow.temperature) =
        .ok [pyRound1 (pyMax (-20) (pyMin 40 10)), pyRound1 (pyMax (-20) (pyMin 40 10))] := by
      rw [(predict_weather_ok (constOracles 10 0) obsFourteen 2 (by decide) (by decide)).2]
      rfl
    have e2 : (predict_weather (constOracles 20 0) obsFourteen 2).map
        (List.map PredRow.temperature) =
        .ok [pyRound1 (pyMax (-20) (pyMin 40 20)), pyRound1 (pyMax (-20) (pyMin 40 20))] := by
      rw [(predict_weather_ok (constOracles 20 0) obsFourteen 2 (by decide) (by decide)).2]
      rfl
    rw [e1, e2]
    intro heq
    have hlist := Except.ok.inj heq
    injection hlist with h1 _
    rw [pyRound1_clamp_ten, pyRound1_clamp_twenty] at h1
    exact absurd h1 (by norm_num)

/-- C1 (amended): the feature row used to predict forecast day i is built
from the fixed feature table of the historical series alone; the loop
never appends forecasts to the working history, so (a) the sequence of
feature vectors is the same for any two oracle bundles sharing the
trigonometry, whatever the trained models predict, and (b) on every
successful run the feature vector of step i is exactly
`_create_prediction_features(historical feature table, last_date + i)`. -/
theorem C1_no_feedback_thm :
    (∀ (O Oa : Oracles) (hist : ObsData) (n : ℕ), O.toTrigOracle = Oa.toTrigOracle →
      (predictWithTrace O hist n).map (List.map Prod.fst) =
        (predictWithTrace Oa hist n).map (List.map Prod.fst)) ∧
    (∀ (O : Oracles) (hist : ObsData) (n : ℕ),
      hist.dates = [] ∨ (∃ e, predictWithTrace O hist n = .error e) ∨
      (predictWithTrace O hist n).map (List.map Prod.fst) =
        .ok ((List.range n).map (fun j => predFeaturesAt O hist (j + 1)))) := by
  constructor
  · intro O Oa hist n hTrig
    exact predict_features_model_independent O Oa hTrig hist n
  · intro O hist n
    rcases hd : hist.dates with _ | ⟨x, xs⟩
    · exact Or.inl rfl
    · have hne : hist.dates ≠ [] := by rw [hd]; exact List.cons_ne_nil x xs
      by_cases h14 : 14 ≤ hist.temperature.length
      · right; right
        rw [(predict_weather_ok O hist n hne h14).1]
        simp [Except.map, List.map_map, Function.comp_def]
      · have hempty : hist.dates.isEmpty = false := by rw [hd]; rfl
        have hw : ∀ i : ℕ, (predFeaturesAt O hist i).length ≠ featureCols.length := by
          intro i
          rw [predFeaturesAt_length, featureCols_length, if_neg h14]
          norm_num
        rcases n with _ | m
        · right; right
          unfold predictWithTrace
          rw [hempty]
          rfl
        · right; left
          have hstep0 : predictStep O hist (0 + 1) =
              .error (.widthMismatch (predFeaturesAt O hist (0 + 1)).length featureCols.length) := by
            unfold predictStep
            rw [if_neg (hw (0 + 1))]
          refine ⟨.widthMismatch (predFeaturesAt O hist (0 + 1)).length featureCols.length, ?_⟩
          unfold predictWithTrace
          rw [hempty]
          simp only [Bool.false_eq_true, if_false]
          rw [List.range_succ_eq_map]
          simp only [loopM, hstep0]

/-- C1 witness: both amended parts at concrete inputs — equal feature
traces for constant-10 and constant-20 models over the 14-row history, and
the feature-vector description of a successful run. -/
theorem C1_no_feedback_witness :
    ((predictWithTrace (constOracles 10 0) obsFourteen 3).map (List.map Prod.fst) =
      (predictWithTrace (constOracles 20 0) obsFourteen 3).map (List.map Prod.fst)) ∧
    (obsFourteen.dates = [] ∨
      (∃ e, predictWithTrace (constOracles 10 0) obsFourteen 3 = .error e) ∨
      (predictWithTrace (constOracles 10 0) obsFourteen 3).map (List.map Prod.fst) =
        .ok ((List.range 3).map (fun j => predFeaturesAt (constOracles 10 0) obsFourteen (j + 1)))) :=
  ⟨C1_no_feedback_thm.1 (constOracles 10 0) (constOracles 20 0) obsFourteen 3 rfl,
   C1_no_feedback_thm.2 (constOracles 10 0) obsFourteen 3⟩

/-! ### Claim C9: no mutation of the caller's table -/

/-- A fold of in-place writes to one reference neither changes other heap
cells… -/
theorem foldl_heapSet_getElem? {α : Type} (F : Heap → α → PyObj) (ref : ℕ) :
    ∀ (l : List α) (h : Heap) (r : ℕ), r ≠ ref →
      (l.foldl (fun hh a => heapSet hh ref (F hh a)) h)[r]? = h[r]?
  | [], _, _, _ => rfl
  | a :: l, h, r, hne => by
      rw [List.foldl_cons, foldl_heapSet_getElem? F ref l _ r hne]
      exact List.getElem?_set_ne (fun he => hne he.symm)

/-- …nor the heap size. -/
theorem foldl_heapSet_length {α : Type} (F : Heap → α → PyObj) (ref : ℕ) :
    ∀ (l : List α) (h : Heap),
      (l.foldl (fun hh a => heapSet hh ref (F hh a)) h).length = h.length
  | [], _ => rfl
  | a :: l, h => by
      rw [List.foldl_cons, foldl_heapSet_length F ref l _]
      exact List.length_set h ref _

/-- Heap-level feature building writes only to the freshly allocated
frames: the caller's cell is untouched. -/
theorem create_advanced_features_heap_frame (O : TrigOracle) (h : Heap) (r : ℕ)
    (hr : r < h.length) :
    ((create_advanced_features_heap O h r).1)[r]? = h[r]? := by
  unfold create_advanced_features_heap
  have hlen1 : (h ++ [PyObj.feat (readObs h r) []]).length = h.length + 1 := by simp
  have hfold := foldl_heapSet_getElem?
    (fun hh id => PyObj.feat (readObs h r) (colsOf hh h.length ++ [(id, rawColumn O (readObs h r) id)]))
    h.length featureAssignOrder (h ++ [PyObj.feat (readObs h r) []]) r (by omega)
  have hfoldlen := foldl_heapSet_length
    (fun hh id => PyObj.feat (readObs h r) (colsOf hh h.length ++ [(id, rawColumn O (readObs h r) id)]))
    h.length featureAssignOrder (h ++ [PyObj.feat (readObs h r) []])
  rw [List.getElem?_append_left (by omega), hfold, List.getElem?_append_left hr]

/-- The heap after feature building has grown by the copy and the filled
frame. -/
theorem create_advanced_features_heap_length (O : TrigOracle) (h : Heap) (r : ℕ) :
    ((create_advanced_features_heap O h r).1).length = h.length + 2 := by
  unfold create_advanced_features_heap
  rw [List.length_append, foldl_heapSet_length]
  simp

/-- C9: neither heap-level feature building nor the full heap-level
forecast pipeline changes the caller's observation table: the cell at the
caller's reference is identical before and after. -/
theorem C9_no_mutation_thm (O : Oracles) (h : Heap) (r : ℕ) (hr : r < h.length) (n : ℕ) :
    ((create_advanced_features_heap O.toTrigOracle h r).1)[r]? = h[r]? ∧
    ((predict_weather_heap O h r n).1)[r]? = h[r]? := by
  refine ⟨create_advanced_features_heap_frame O.toTrigOracle h r hr, ?_⟩
  unfold predict_weather_heap
  by_cases hempty : (readObs h r).dates.isEmpty
  · rw [if_pos hempty, List.getElem?_append_left hr]
  · rw [if_neg hempty]
    have hframe := create_advanced_features_heap_frame O.toTrigOracle h r hr
    have hlen := create_advanced_features_heap_length O.toTrigOracle h r
    rcases predict_weather O (readObs h r) n with e | rows
    · exact hframe
    · rw [List.getElem?_append_left (by omega)]
      exact hframe

/-- C9 witness: the theorem on a one-cell heap holding a two-row table. -/
theorem C9_no_mutation_witness :
    ((create_advanced_features_heap (constOracles 0 0).toTrigOracle [PyObj.obs obsTwo] 0).1)[0]? =
      ([PyObj.obs obsTwo] : Heap)[0]? ∧
    ((predict_weather_heap (constOracles 0 0) [PyObj.obs obsTwo] 0 1).1)[0]? =
      ([PyObj.obs obsTwo] : Heap)[0]? :=
  C9_no_mutation_thm (constOracles 0 0) [PyObj.obs obsTwo] 0 (by norm_num) 1
